import Mathlib

/-!
Shallow embedding of the shared SQLite-backed append-only log of this
repository (`shared/db.py`) and of the agent tool layer built on it
(`learning_coach_agent/agent.py`, `multi_tool_agent/agent.py`,
`content_creator_agent/agent.py`, `project_manager_agent/agent.py`,
`coding_agent/agent.py`), together with theorems settling the claims of
the natural-language specification.

Modelling conventions:
* The SQLite database file is a `DB` value: each table is an
  `Option (List row)`, where `none` models an absent table and the list
  keeps insertion order.  `CREATE TABLE IF NOT EXISTS` turns `none` into
  `some []` and keeps an existing list unchanged.
* `AUTOINCREMENT` ids: a fresh id is one larger than the largest id ever
  issued; for an append-only table that is the current maximum id plus one
  (1 on an empty table).
* `SELECT ... ORDER BY id DESC LIMIT ?` is embedded as a `WHERE` filter,
  an insertion sort on the id (descending), and a `take`; a negative SQL
  LIMIT means "no limit" in SQLite and is modelled that way.
* `CURRENT_TIMESTAMP` defaults are passed in explicitly as `now : Nat`.
* Python `json.dumps` (with its default `ensure_ascii=True`) applied to an
  optional list of strings is embedded character by character, including
  the two-character escapes, the `\uXXXX` escapes and surrogate pairs.
* The SQL `LIKE` operator is embedded with its SQLite default semantics:
  `%` and `_` wildcards and ASCII-only case folding.
-/

namespace AgentsDb

/-! ### Python `json.dumps` on an optional list of strings -/

/-- Lower-case hexadecimal digit, as CPython emits in `\uXXXX` escapes. -/
def hexDigit (n : Nat) : Char :=
  if n < 10 then Char.ofNat (48 + n) else Char.ofNat (87 + n)

/-- Four hexadecimal digits of a value below 65536. -/
def hex4 (n : Nat) : List Char :=
  [hexDigit (n / 4096 % 16), hexDigit (n / 256 % 16), hexDigit (n / 16 % 16), hexDigit (n % 16)]

/-- How CPython `json.dumps` with `ensure_ascii=True` renders one character
inside a string literal: `\` and `"` and the five short control escapes;
other characters outside the printable ASCII range 0x20..0x7e as `\uXXXX`
(a surrogate pair above 0xffff); printable ASCII kept as is. -/
def escapeChar (c : Char) : List Char :=
  if c = '"' then ['\\', '"']
  else if c = '\\' then ['\\', '\\']
  else if c = '\n' then ['\\', 'n']
  else if c = '\r' then ['\\', 'r']
  else if c = '\t' then ['\\', 't']
  else if c.toNat = 8 then ['\\', 'b']
  else if c.toNat = 12 then ['\\', 'f']
  else if c.toNat < 32 then '\\' :: 'u' :: hex4 c.toNat
  else if c.toNat ≤ 126 then [c]
  else if c.toNat < 65536 then '\\' :: 'u' :: hex4 c.toNat
  else
    ('\\' :: 'u' :: hex4 (55296 + (c.toNat - 65536) / 1024)) ++
      ('\\' :: 'u' :: hex4 (56320 + (c.toNat - 65536) % 1024))

/-- Escape every character of a string body. -/
def escapeList (cs : List Char) : List Char :=
  (cs.map escapeChar).flatten

/-- JSON string literal for `s`: quote, escaped body, quote. -/
def jsonDumpsString (s : String) : String :=
  String.mk ('"' :: (escapeList s.data ++ ['"']))

/-- Python `", ".join`, the default item separator of `json.dumps`. -/
def joinCommaSpace : List String → String
  | [] => ""
  | [x] => x
  | x :: y :: ys => x ++ ", " ++ joinCommaSpace (y :: ys)

/-- `json.dumps` of a list of strings. -/
def jsonDumpsList (xs : List String) : String :=
  "[" ++ joinCommaSpace (xs.map jsonDumpsString) ++ "]"

/-- `json.dumps` of an optional list of strings: Python `None` serializes to
the four-character string `null`. -/
def jsonDumpsOpt : Option (List String) → String
  | none => "null"
  | some xs => jsonDumpsList xs

/-! ### The three tables of `agents_data.db` -/

/-- One row of the `journals` table
(`id, agent, entry, tags, created_at`); `tags` holds the serialized JSON. -/
structure JournalRow where
  id : Nat
  agent : String
  entry : String
  tags : String
  created_at : Nat
deriving Repr, DecidableEq

/-- One row of the `playlists` table (`id, name, items, created_at`);
`items` holds the serialized JSON. -/
structure PlaylistRow where
  id : Nat
  name : String
  items : String
  created_at : Nat
deriving Repr, DecidableEq

/-- One row of the `agent_responses` table
(`id, agent, user_message, agent_response, session_id, created_at`);
`session_id` is a nullable column. -/
structure ResponseRow where
  id : Nat
  agent : String
  user_message : String
  agent_response : String
  session_id : Option String
  created_at : Nat
deriving Repr, DecidableEq

/-- The acknowledgement dictionary returned by the write helpers of
`shared/db.py`, always `status = "ok"`. -/
structure Ack where
  status : String
deriving Repr, DecidableEq

/-- The database file: three tables, each possibly absent. -/
structure DB where
  journals : Option (List JournalRow)
  playlists : Option (List PlaylistRow)
  agent_responses : Option (List ResponseRow)
deriving Repr, DecidableEq

/-- A database file with no tables yet. -/
def emptyDB : DB :=
  { journals := none, playlists := none, agent_responses := none }

/-- The rows of the `journals` table (an absent table reads as no rows). -/
def journalsOf (db : DB) : List JournalRow :=
  db.journals.getD []

/-- The rows of the `playlists` table. -/
def playlistsOf (db : DB) : List PlaylistRow :=
  db.playlists.getD []

/-- The rows of the `agent_responses` table. -/
def responsesOf (db : DB) : List ResponseRow :=
  db.agent_responses.getD []

/-! ### SQL building blocks -/

/-- The id `AUTOINCREMENT` assigns to the next inserted row of an
append-only table: one more than the largest id present (1 when empty). -/
def nextId {α : Type*} (key : α → Nat) (rows : List α) : Nat :=
  rows.foldr (fun r m => max (key r) m) 0 + 1

/-- Insertion step of the descending sort used to embed `ORDER BY id DESC`. -/
def insertDescBy {α : Type*} (key : α → Nat) (r : α) : List α → List α
  | [] => [r]
  | x :: xs => if key x ≤ key r then r :: x :: xs else x :: insertDescBy key r xs

/-- Sort rows by descending key (`ORDER BY id DESC`). -/
def sortDescBy {α : Type*} (key : α → Nat) (rows : List α) : List α :=
  rows.foldr (insertDescBy key) []

/-- `ORDER BY key DESC LIMIT lim` over already-filtered rows. In SQLite a
negative LIMIT means no limit. -/
def queryDescLimit {α : Type*} (key : α → Nat) (rows : List α) (lim : Int) : List α :=
  if lim < 0 then sortDescBy key rows else (sortDescBy key rows).take lim.toNat

/-! ### The operations of `shared/db.py` -/

/-- Embeds `init_db`: `CREATE TABLE IF NOT EXISTS` for the three tables. -/
def init_db (db : DB) : DB :=
  { journals := some (journalsOf db),
    playlists := some (playlistsOf db),
    agent_responses := some (responsesOf db) }

/-- Embeds `save_journal(agent, entry, tags=None)`: `init_db`, then
`INSERT INTO journals (agent, entry, tags) VALUES (?, ?, ?)` with
`json.dumps(tags)`; returns the new state and the ack dict. -/
def save_journal (db : DB) (now : Nat) (agent entry : String)
    (tags : Option (List String)) : DB × Ack :=
  let db := init_db db
  let rows := journalsOf db
  let row : JournalRow :=
    { id := nextId (·.id) rows, agent := agent, entry := entry,
      tags := jsonDumpsOpt tags, created_at := now }
  ({ db with journals := some (rows ++ [row]) }, { status := "ok" })

/-- Embeds `list_journals(limit=20)`:
`SELECT id, agent, entry, tags, created_at FROM journals ORDER BY id DESC LIMIT ?`. -/
def list_journals (db : DB) (lim : Int) : List JournalRow :=
  queryDescLimit (·.id) (journalsOf (init_db db)) lim

/-- Embeds `get_journals_by_agent(agent_name, limit=20)`: the same query
with `WHERE agent = ?`. -/
def get_journals_by_agent (db : DB) (agent_name : String) (lim : Int) : List JournalRow :=
  queryDescLimit (·.id) ((journalsOf (init_db db)).filter (fun r => r.agent == agent_name)) lim

/-- Embeds `save_playlist(name, items)`:
`INSERT INTO playlists (name, items) VALUES (?, ?)` with `json.dumps(items)`. -/
def save_playlist (db : DB) (now : Nat) (name : String) (items : List String) : DB × Ack :=
  let db := init_db db
  let rows := playlistsOf db
  let row : PlaylistRow :=
    { id := nextId (·.id) rows, name := name, items := jsonDumpsList items,
      created_at := now }
  ({ db with playlists := some (rows ++ [row]) }, { status := "ok" })

/-- Embeds `list_playlists(limit=20)`:
`SELECT id, name, items, created_at FROM playlists ORDER BY id DESC LIMIT ?`. -/
def list_playlists (db : DB) (lim : Int) : List PlaylistRow :=
  queryDescLimit (·.id) (playlistsOf (init_db db)) lim

/-- Embeds `save_agent_response(agent, user_message, agent_response, session_id=None)`. -/
def save_agent_response (db : DB) (now : Nat) (agent user_message agent_response : String)
    (session_id : Option String) : DB × Ack :=
  let db := init_db db
  let rows := responsesOf db
  let row : ResponseRow :=
    { id := nextId (·.id) rows, agent := agent, user_message := user_message,
      agent_response := agent_response, session_id := session_id, created_at := now }
  ({ db with agent_responses := some (rows ++ [row]) }, { status := "ok" })

/-- Embeds `get_agent_memory(agent_name, limit=5)`: newest-first fetch of the
rows of one agent bounded by `limit`, then `list(reversed(rows))` to give
chronological order. -/
def get_agent_memory (db : DB) (agent_name : String) (lim : Int) : List ResponseRow :=
  (queryDescLimit (·.id) ((responsesOf (init_db db)).filter (fun r => r.agent == agent_name)) lim).reverse

/-- The dictionary built for each row by `get_recent_conversations`. -/
structure Conversation where
  id : Nat
  user_message : String
  agent_response : String
  session_id : Option String
  created_at : Nat
deriving Repr, DecidableEq

/-- Embeds the per-row dictionary construction of `get_recent_conversations`. -/
def rowToConversation (r : ResponseRow) : Conversation :=
  { id := r.id, user_message := r.user_message, agent_response := r.agent_response,
    session_id := r.session_id, created_at := r.created_at }

/-- Embeds `get_recent_conversations(agent_name, limit=5)`. -/
def get_recent_conversations (db : DB) (agent_name : String) (lim : Int) : List Conversation :=
  (get_agent_memory db agent_name lim).map rowToConversation

/-- Embeds `format_memory_for_context(agent_name, limit=5)`. -/
def format_memory_for_context (db : DB) (agent_name : String) (lim : Int) : String :=
  let conversations := get_recent_conversations db agent_name lim
  if conversations.isEmpty then "No previous conversation history."
  else
    String.intercalate "\n"
      ("Recent conversation history:" ::
        conversations.flatMap (fun conv =>
          ["User: " ++ conv.user_message, "You: " ++ conv.agent_response, "---"]))

/-- The result dictionary of the memory tool produced by `get_memory_tool`. -/
structure MemoryResult where
  status : String
  conversations : List Conversation
  count : Nat
  formatted_context : String
deriving Repr, DecidableEq

/-- Embeds the closure `get_memory(limit=5)` returned by
`get_memory_tool(agent_name)`: clamps `limit` to `[1, 10]` and packages the
recent conversations. -/
def get_memory (db : DB) (agent_name : String) (lim : Int) : MemoryResult :=
  let lim := max 1 (min 10 lim)
  { status := "success",
    conversations := get_recent_conversations db agent_name lim,
    count := (get_recent_conversations db agent_name lim).length,
    formatted_context := format_memory_for_context db agent_name lim }

/-! ### Substring containment (Python `in` on strings) -/

/-- Whether `p` is a leading run of `l`, character by character. -/
def startsWithList : List Char → List Char → Bool
  | _, [] => true
  | [], _ :: _ => false
  | c :: l, p :: ps => (p == c) && startsWithList l ps

/-- Whether `needle` occurs contiguously inside `l`. -/
def containsList : List Char → List Char → Bool
  | [], needle => needle.isEmpty
  | c :: l, needle => startsWithList (c :: l) needle || containsList l needle

/-- Python `needle in hay` on strings: contiguous substring containment. -/
def strContains (hay needle : String) : Bool :=
  containsList hay.data needle.data

/-! ### SQLite `LIKE` -/

/-- Case folding of the default SQLite `LIKE`: upper-case ASCII letters
compare equal to their lower-case forms, every other character compares
exactly. -/
def likeFold (c : Char) : Char :=
  if 'A' ≤ c ∧ c ≤ 'Z' then Char.ofNat (c.toNat + 32) else c

/-- SQLite `LIKE` pattern matching over characters: `%` matches any
sequence of characters (the rest of the pattern must match some suffix),
`_` matches exactly one character, any other pattern character matches one
character up to ASCII case folding. -/
def likeMatch : List Char → List Char → Bool
  | [], s => s.isEmpty
  | pc :: p, s =>
    if pc = '%' then s.tails.any (fun t => likeMatch p t)
    else if pc = '_' then
      match s with
      | [] => false
      | _ :: s2 => likeMatch p s2
    else
      match s with
      | [] => false
      | c :: s2 => (likeFold pc == likeFold c) && likeMatch p s2

/-- The SQL operator `s LIKE pat`. -/
def sqliteLike (pat s : String) : Bool :=
  likeMatch pat.data s.data

/-- The `WHERE` clause of `search_journals`:
`entry LIKE '%term%' OR tags LIKE '%term%'`. -/
def searchHit (search_term : String) (r : JournalRow) : Bool :=
  sqliteLike ("%" ++ search_term ++ "%") r.entry ||
    sqliteLike ("%" ++ search_term ++ "%") r.tags

/-- Embeds `search_journals(search_term, limit=20)`:
`SELECT ... FROM journals WHERE entry LIKE ? OR tags LIKE ? ORDER BY id DESC LIMIT ?`
with both patterns `'%' + search_term + '%'`. -/
def search_journals (db : DB) (search_term : String) (lim : Int) : List JournalRow :=
  queryDescLimit (·.id) ((journalsOf (init_db db)).filter (searchHit search_term)) lim

/-! ### Decoding the serialized playlist items

The repository stores `json.dumps(items)` and leaves decoding to callers
(`json.loads`).  The decoder below inverts the exact output grammar of
`jsonDumpsList`: a bracketed, comma-space separated sequence of JSON
string literals with the `ensure_ascii` escapes. -/

/-- Value of one hexadecimal digit character. -/
def hexVal (c : Char) : Option Nat :=
  if '0' ≤ c ∧ c ≤ '9' then some (c.toNat - 48)
  else if 'a' ≤ c ∧ c ≤ 'f' then some (c.toNat - 87)
  else if 'A' ≤ c ∧ c ≤ 'F' then some (c.toNat - 55)
  else none

/-- First scanning pass over the body of a JSON string literal, up to its
closing quote: turns each escape (or raw character) into a UTF-16 code
unit, the way the CPython scanner reads `\uXXXX` escapes one at a time.
Returns the units and the input after the closing quote. -/
def unescapeUnits : List Char → Option (List Nat × List Char)
  | [] => none
  | '"' :: rest => some ([], rest)
  | '\\' :: 'u' :: d1 :: d2 :: d3 :: d4 :: rest =>
    match hexVal d1, hexVal d2, hexVal d3, hexVal d4 with
    | some h1, some h2, some h3, some h4 =>
      (unescapeUnits rest).map (fun q => ((((h1 * 16 + h2) * 16 + h3) * 16 + h4) :: q.1, q.2))
    | _, _, _, _ => none
  | '\\' :: e :: rest =>
    if e = '"' then (unescapeUnits rest).map (fun q => (34 :: q.1, q.2))
    else if e = '\\' then (unescapeUnits rest).map (fun q => (92 :: q.1, q.2))
    else if e = 'n' then (unescapeUnits rest).map (fun q => (10 :: q.1, q.2))
    else if e = 'r' then (unescapeUnits rest).map (fun q => (13 :: q.1, q.2))
    else if e = 't' then (unescapeUnits rest).map (fun q => (9 :: q.1, q.2))
    else if e = 'b' then (unescapeUnits rest).map (fun q => (8 :: q.1, q.2))
    else if e = 'f' then (unescapeUnits rest).map (fun q => (12 :: q.1, q.2))
    else none
  | c :: rest => (unescapeUnits rest).map (fun q => (c.toNat :: q.1, q.2))

/-- Second pass: combines a high and a low surrogate into one character
and rejects lone surrogates, as `json.loads` pairs `\uXXXX` escapes. -/
def combineUnits : List Nat → Option (List Char)
  | [] => some []
  | [n] =>
    if 55296 ≤ n ∧ n < 57344 then none
    else some [Char.ofNat n]
  | n :: m :: rest =>
    if 55296 ≤ n ∧ n < 56320 then
      if 56320 ≤ m ∧ m < 57344 then
        (combineUnits rest).map (fun cs =>
          Char.ofNat (65536 + (n - 55296) * 1024 + (m - 56320)) :: cs)
      else none
    else if 56320 ≤ n ∧ n < 57344 then none
    else (combineUnits (m :: rest)).map (fun cs => Char.ofNat n :: cs)

/-- Scans the body of a JSON string literal up to its closing quote:
returns the decoded characters and the input after the quote. Handles
exactly the escapes `jsonDumpsString` emits, including surrogate pairs. -/
def parseStringBody (cs : List Char) : Option (List Char × List Char) :=
  match unescapeUnits cs with
  | some (us, rest) => (combineUnits us).map (fun chars => (chars, rest))
  | none => none

/-- The UTF-16 code units one character contributes under the
`ensure_ascii` encoding (one unit below 0x10000, else a surrogate pair). -/
def unitsOf (c : Char) : List Nat :=
  if c.toNat < 65536 then [c.toNat]
  else [55296 + (c.toNat - 65536) / 1024, 56320 + (c.toNat - 65536) % 1024]

/-- Disassembles a nonempty comma-space separated item sequence followed by
the closing bracket; `fuel` bounds the number of items (each step consumes
at least one input character). -/
def parseItems (fuel : Nat) (cs : List Char) : Option (List String) :=
  match fuel with
  | 0 => none
  | fuel + 1 =>
    match cs with
    | '"' :: rest =>
      match parseStringBody rest with
      | some (content, [']']) => some [String.mk content]
      | some (content, ',' :: ' ' :: rest2) =>
        (parseItems fuel rest2).map (fun xs => String.mk content :: xs)
      | _ => none
    | _ => none

/-- Decodes the output of `jsonDumpsList`: the decoding callers perform
with `json.loads` on the stored `items` column. -/
def jsonLoadsList (s : String) : Option (List String) :=
  match s.data with
  | ['[', ']'] => some []
  | '[' :: rest => parseItems rest.length rest
  | _ => none

/-! ### Python helpers shared by several tools -/

/-- Python list slicing `l[:n]`: a negative stop counts from the end. -/
def pySliceTo {α : Type*} (l : List α) (n : Int) : List α :=
  if 0 ≤ n then l.take n.toNat else l.take (l.length - (-n).toNat)

/-- Splitting a character list at every occurrence of `sep`; the result
always has one more piece than there are separators. -/
def splitCharAux (sep : Char) : List Char → List (List Char)
  | [] => [[]]
  | c :: cs =>
    if c = sep then [] :: splitCharAux sep cs
    else
      match splitCharAux sep cs with
      | [] => [[c]]
      | r :: rs => (c :: r) :: rs

/-- Python `s.split(sep)` for a one-character separator (the only form the
repository uses: `split(",")` and `split(":")`). -/
def pySplit (s : String) (sep : Char) : List String :=
  (splitCharAux sep s.data).map String.mk

/-- Python `s.strip()`: drops whitespace from both ends. -/
def pyStrip (s : String) : String :=
  String.mk (((s.data.dropWhile Char.isWhitespace).reverse.dropWhile
    Char.isWhitespace).reverse)

/-- Python `str.title()` (ASCII model): an alphabetic character is
upper-cased after a non-alphabetic one and lower-cased otherwise. -/
def pyTitleAux : Bool → List Char → List Char
  | _, [] => []
  | prevCased, c :: cs =>
    let cased := c.isAlpha
    (if cased then (if prevCased then c.toLower else c.toUpper) else c) ::
      pyTitleAux cased cs

/-- Python `str.title()` on a string. -/
def pyTitle (s : String) : String :=
  String.mk (pyTitleAux false s.data)

/-! ### Tools of `learning_coach_agent/agent.py` -/

/-- Result dictionary of `create_lesson`. -/
structure LessonResult where
  status : String
  lesson : String
deriving Repr, DecidableEq

/-- Embeds `create_lesson(topic, level, steps)`. -/
def create_lesson (topic level : String) (steps : Int) : LessonResult :=
  let level := if level = "" then "beginner" else level
  let steps := if steps = 0 ∨ steps < 1 then 3 else steps
  let steps := max 1 (min 10 steps)
  { status := "success",
    lesson := String.intercalate "\n"
      ((List.range steps.toNat).map (fun i =>
        "Step " ++ toString (i + 1) ++ ": A short actionable explanation for " ++
          topic ++ " (level=" ++ level ++ ")")) }

/-- Result dictionary of `generate_quiz`. -/
structure QuizResult where
  status : String
  quiz : List String
deriving Repr, DecidableEq

/-- Embeds `generate_quiz(topic, num_questions)`. -/
def generate_quiz (topic : String) (num_questions : Int) : QuizResult :=
  let nq := if num_questions = 0 ∨ num_questions < 1 then 3 else num_questions
  let nq := max 1 (min 10 nq)
  { status := "success",
    quiz := (List.range nq.toNat).map (fun i =>
      "Q" ++ toString (i + 1) ++ ". Brief question about " ++ topic ++ " (short answer)") }

/-- Result dictionary of the `journal` tool. -/
structure JournalToolResult where
  status : String
  entry : String
deriving Repr, DecidableEq

/-- Embeds `journal(entry, tags)` of the learning coach agent. -/
def journal (db : DB) (now : Nat) (entry tags : String) : DB × JournalToolResult :=
  let tag_list : Option (List String) := if tags = "" then none else some (pySplit tags ',')
  let db := (save_journal db now "learning_coach" entry tag_list).1
  (db, { status := "saved", entry := entry })

/-! ### Tools of `multi_tool_agent/agent.py` -/

/-- Result dictionary of `get_weather` and `get_current_time`: the Python
dicts carry either a `report` key or an `error_message` key next to
`status`; an absent key is `none`. -/
structure ReportResult where
  status : String
  report : Option String
  error_message : Option String
deriving Repr, DecidableEq

/-- Embeds `get_weather(city)`. -/
def get_weather (city : String) : ReportResult :=
  if city.toLower = "new york" then
    { status := "success",
      report := some "The weather in New York is sunny with a temperature of 25°C (77°F).",
      error_message := none }
  else
    { status := "error", report := none,
      error_message := some ("No weather info for '" ++ city ++ "'.") }

/-- Embeds `get_current_time(city)`; the formatted current time of the
wall clock enters as the `now_report` argument. -/
def get_current_time (city : String) (now_report : String) : ReportResult :=
  if city.toLower = "new york" then
    { status := "success", report := some now_report, error_message := none }
  else
    { status := "error", report := none,
      error_message := some ("No timezone info for '" ++ city ++ "'.") }

/-! ### Tools of `content_creator_agent/agent.py` -/

/-- Result dictionary of `generate_caption`. -/
structure CaptionResult where
  status : String
  caption : String
deriving Repr, DecidableEq

/-- Embeds `generate_caption(text, tone="casual")`. -/
def generate_caption (text tone : String) : CaptionResult :=
  { status := "success",
    caption :=
      if text.length > 140 then "[" ++ tone.toUpper ++ "] " ++ text.take 140 ++ "..."
      else "[" ++ tone.toUpper ++ "] " ++ text }

/-- Result dictionary of `make_playlist`. -/
structure PlaylistToolResult where
  status : String
  playlist : List String
deriving Repr, DecidableEq

/-- Embeds `make_playlist(genres, length=10)`: the nested comprehension
repeats each genre title a fixed number of times, the result is sliced to
`length` items and saved as a playlist. -/
def make_playlist (db : DB) (now : Nat) (genres : String) (length : Int) :
    DB × PlaylistToolResult :=
  let gs := pySplit genres ','
  let reps := max 1 (Int.fdiv length (max 1 (gs.length : Int)))
  let items :=
    (gs.enum.map (fun p =>
      List.replicate reps.toNat (pyTitle (pyStrip p.2) ++ " Song " ++ toString (p.1 + 1)))).flatten
  let items := pySliceTo items length
  let db := (save_playlist db now ("Playlist (" ++ genres ++ ")") items).1
  (db, { status := "success", playlist := items })

/-- Result dictionary of `script_outline`. -/
structure OutlineResult where
  status : String
  outline : List String
  topic : String
  duration : Int
deriving Repr, DecidableEq

/-- Embeds `script_outline(topic, duration_seconds=60)`. -/
def script_outline (topic : String) (duration_seconds : Int) : OutlineResult :=
  { status := "success",
    outline :=
      ["Hook: 1-2 lines to catch attention about " ++ topic,
       "Body: 3 quick points with examples about " ++ topic,
       "Call to action: 1 line"],
    topic := topic, duration := duration_seconds }

/-! ### Tools of `project_manager_agent/agent.py` -/

/-- The `task_data` dictionary of `add_task` (`type` keys of the source are
written `type_`, a Lean keyword clash). -/
structure TaskData where
  description : String
  due_date : String
  priority : String
  status : String
  created_at : String
deriving Repr, DecidableEq

/-- Result dictionary of `add_task`. -/
structure AddTaskResult where
  status : String
  message : String
  task_data : TaskData
deriving Repr, DecidableEq

/-- Embeds `add_task(task_description, due_date="", priority="medium", tags="")`;
`datetime.now().isoformat()` enters as `now_iso`. -/
def add_task (db : DB) (now : Nat) (now_iso : String)
    (task_description due_date priority tags : String) : DB × AddTaskResult :=
  let task_data : TaskData :=
    { description := task_description, due_date := due_date,
      priority := priority.toLower, status := "pending", created_at := now_iso }
  let tag_list := (if tags = "" then [] else pySplit tags ',') ++ ["task", priority.toLower]
  let task_entry :=
    "TASK: " ++ task_description ++ "\nDUE: " ++ due_date ++ "\nPRIORITY: " ++
      priority ++ "\nSTATUS: pending"
  let db := (save_journal db now "project_manager" task_entry (some tag_list)).1
  (db, { status := "success", message := "Task added: " ++ task_description,
         task_data := task_data })

/-- One `task_info` dictionary of `list_tasks`. -/
structure TaskInfo where
  id : Nat
  entry : String
  created_at : Nat
  tags : String
deriving Repr, DecidableEq

/-- Result dictionary of `list_tasks`. -/
structure ListTasksResult where
  status : String
  tasks : List TaskInfo
  count : Nat
  filter : String
deriving Repr, DecidableEq

/-- Embeds `list_tasks(status="all", limit=20)`. -/
def list_tasks (db : DB) (status : String) (lim : Int) : ListTasksResult :=
  let lim := max 1 (min 100 lim)
  let history := list_journals db lim
  let tasks := history.filterMap (fun row =>
    if row.agent == "project_manager" && strContains row.entry "TASK:" then
      if status == "all" || strContains row.entry.toLower status.toLower then
        some ({ id := row.id, entry := row.entry, created_at := row.created_at,
                tags := row.tags } : TaskInfo)
      else none
    else none)
  { status := "success", tasks := tasks, count := tasks.length, filter := status }

/-- Result dictionary of `update_task_status`. -/
structure UpdateTaskResult where
  status : String
  message : String
  task_id : Int
  new_status : String
deriving Repr, DecidableEq

/-- Embeds `update_task_status(task_id, new_status)`: appends a new journal
row, no row is mutated. -/
def update_task_status (db : DB) (now : Nat) (task_id : Int) (new_status : String) :
    DB × UpdateTaskResult :=
  let status_update :=
    "TASK_UPDATE: Task ID " ++ toString task_id ++ " status changed to " ++ new_status
  let db := (save_journal db now "project_manager" status_update
    (some ["task", "update", new_status])).1
  (db, { status := "success",
         message := "Task " ++ toString task_id ++ " status updated to " ++ new_status,
         task_id := task_id, new_status := new_status })

/-- The `doc_data` dictionary of `add_project_doc` (`type_` stands for the
dict key `type`). -/
structure DocData where
  title : String
  url : String
  type_ : String
  description : String
deriving Repr, DecidableEq

/-- Result dictionary of `add_project_doc`. -/
structure AddDocResult where
  status : String
  message : String
  doc_data : DocData
deriving Repr, DecidableEq

/-- Embeds `add_project_doc(doc_title, doc_url, doc_type="general", description="")`. -/
def add_project_doc (db : DB) (now : Nat)
    (doc_title doc_url doc_type description : String) : DB × AddDocResult :=
  let doc_entry :=
    "DOC: " ++ doc_title ++ "\nURL: " ++ doc_url ++ "\nTYPE: " ++ doc_type ++
      "\nDESC: " ++ description
  let db := (save_journal db now "project_manager" doc_entry
    (some ["documentation", doc_type, "reference"])).1
  (db, { status := "success", message := "Document added: " ++ doc_title,
         doc_data := { title := doc_title, url := doc_url, type_ := doc_type,
                       description := description } })

/-- Result dictionary of `generate_git_workflow_summary`. -/
structure GitWorkflowResult where
  status : String
  workflow : String
  branch_name : String
  feature : String
deriving Repr, DecidableEq

/-- Embeds `generate_git_workflow_summary(branch_name, feature_description)`. -/
def generate_git_workflow_summary (db : DB) (now : Nat)
    (branch_name feature_description : String) : DB × GitWorkflowResult :=
  let workflow_steps :=
    ["# Git Workflow for " ++ branch_name,
     "## Feature: " ++ feature_description,
     "",
     "### 1. Create and switch to feature branch:",
     "```bash",
     "git checkout -b " ++ branch_name,
     "```",
     "",
     "### 2. Make your changes and commit:",
     "```bash",
     "git add .",
     "git commit -m \"Add: " ++ feature_description ++ "\"",
     "```",
     "",
     "### 3. Push branch to remote:",
     "```bash",
     "git push origin " ++ branch_name,
     "```",
     "",
     "### 4. Create Pull Request:",
     "- Go to your repository on GitHub/GitLab",
     "- Create PR from " ++ branch_name ++ " to main/develop",
     "- Title: " ++ feature_description,
     "- Add description and request reviewers",
     "",
     "### 5. After PR approval:",
     "```bash",
     "git checkout main",
     "git pull origin main",
     "git branch -d " ++ branch_name ++ "  # Delete local branch",
     "```"]
  let workflow_text := String.intercalate "\n" workflow_steps
  let db := (save_journal db now "project_manager"
    ("Git workflow for " ++ branch_name ++ ": " ++ feature_description)
    (some ["git", "workflow", "branch"])).1
  (db, { status := "success", workflow := workflow_text,
         branch_name := branch_name, feature := feature_description })

/-- The `reminder_data` dictionary of `set_reminder` (`type_` stands for
the dict key `type`). -/
structure ReminderData where
  text : String
  date : String
  type_ : String
deriving Repr, DecidableEq

/-- Result dictionary of `set_reminder`. -/
structure SetReminderResult where
  status : String
  message : String
  reminder_data : ReminderData
deriving Repr, DecidableEq

/-- Embeds `set_reminder(reminder_text, reminder_date, reminder_type="general")`. -/
def set_reminder (db : DB) (now : Nat)
    (reminder_text reminder_date reminder_type : String) : DB × SetReminderResult :=
  let reminder_entry :=
    "REMINDER: " ++ reminder_text ++ "\nDATE: " ++ reminder_date ++ "\nTYPE: " ++
      reminder_type
  let db := (save_journal db now "project_manager" reminder_entry
    (some ["reminder", reminder_type, "scheduled"])).1
  (db, { status := "success", message := "Reminder set: " ++ reminder_text,
         reminder_data := { text := reminder_text, date := reminder_date,
                            type_ := reminder_type } })

/-- The `summary` dictionary of `get_project_summary`. -/
structure ProjectSummary where
  total_entries : Nat
  tasks : Nat
  docs : Nat
  reminders : Nat
  git_workflows : Nat
  recent_activity : List JournalRow
deriving Repr, DecidableEq

/-- Result dictionary of `get_project_summary`. -/
structure ProjectSummaryResult where
  status : String
  summary : ProjectSummary
  days_back : Int
deriving Repr, DecidableEq

/-- Embeds `get_project_summary(days_back=7)`. -/
def get_project_summary (db : DB) (days_back : Int) : ProjectSummaryResult :=
  let lim := days_back * 10
  let history := list_journals db lim
  let pm_entries := history.filter (fun row => row.agent == "project_manager")
  { status := "success",
    summary :=
      { total_entries := pm_entries.length,
        tasks := (pm_entries.filter (fun e => strContains e.entry "TASK:")).length,
        docs := (pm_entries.filter (fun e => strContains e.entry "DOC:")).length,
        reminders := (pm_entries.filter (fun e => strContains e.entry "REMINDER:")).length,
        git_workflows := (pm_entries.filter (fun e => strContains e.entry "Git workflow")).length,
        recent_activity := pm_entries.take 10 },
    days_back := days_back }

/-! ### Tools of `coding_agent/agent.py` -/

/-- A Python exception escaping a tool function. -/
inductive PyError where
  | valueError
deriving Repr, DecidableEq

/-- Result dictionary of `generate_django_model`. -/
structure DjangoModelResult where
  status : String
  model_code : String
  description : String
deriving Repr, DecidableEq

/-- The per-field code of the `generate_django_model` loop: a field item
without a colon contributes nothing; one with a colon is unpacked as
`field_name, field_type = field.strip().split(":")`, which raises
`ValueError` unless the split has exactly two parts. -/
def djangoFieldLine (field : String) : Except PyError String :=
  if strContains field ":" then
    match pySplit (pyStrip field) ':' with
    | [field_name, field_type] =>
      .ok (if field_type.toLower = "charfield" then
            "    " ++ field_name ++ " = models.CharField(max_length=200)\n"
          else if field_type.toLower = "textfield" then
            "    " ++ field_name ++ " = models.TextField()\n"
          else if field_type.toLower = "foreignkey" then
            "    " ++ field_name ++ " = models.ForeignKey(User, on_delete=models.CASCADE)\n"
          else if field_type.toLower = "datetimefield" then
            "    " ++ field_name ++ " = models.DateTimeField(auto_now_add=True)\n"
          else
            "    " ++ field_name ++ " = models." ++ field_type ++ "()\n")
    | _ => .error .valueError
  else .ok ""

/-- The `for field in field_list` loop of `generate_django_model`:
concatenates the per-field lines in order, stopping at the first field
whose unpacking raises. -/
def djangoBody : List String → Except PyError String
  | [] => .ok ""
  | f :: fs => do
    let line ← djangoFieldLine f
    let rest ← djangoBody fs
    pure (line ++ rest)

/-- Embeds `generate_django_model(model_name, fields, description="")`.
The tuple unpacking inside its loop can raise `ValueError`, so the result
is an `Except`. -/
def generate_django_model (db : DB) (now : Nat) (model_name fields description : String) :
    Except PyError (DB × DjangoModelResult) := do
  let field_list := pySplit fields ','
  let body ← djangoBody field_list
  let model_code :=
    "from django.db import models\nfrom django.contrib.auth.models import User\n\n" ++
      "class " ++ model_name ++ "(models.Model):\n" ++ body ++
      "\n    def __str__(self):\n        return str(self.id)\n" ++
      "\n    class Meta:\n        verbose_name = '" ++ model_name ++
      "'\n        verbose_name_plural = '" ++ model_name ++ "s'"
  let db := (save_journal db now "coding_agent"
    ("Generated Django model: " ++ model_name) (some ["django", "model", "code"])).1
  return (db, { status := "success", model_code := model_code, description := description })

/-- Result dictionary of `debug_python_code`. -/
structure DebugResult where
  status : String
  suggestions : List String
  code_snippet : String
  error : String
deriving Repr, DecidableEq

/-- Embeds `debug_python_code(code_snippet, error_description)`. -/
def debug_python_code (db : DB) (now : Nat) (code_snippet error_description : String) :
    DB × DebugResult :=
  let suggestions :=
    (if strContains error_description "IndexError" then
      ["Check if you're accessing a list index that doesn't exist",
       "Use len(list) to check list size before accessing",
       "Consider using try/except or list slicing with bounds"]
     else []) ++
    (if strContains error_description "KeyError" then
      ["Check if the dictionary key exists using 'key in dict'",
       "Use dict.get('key', default_value) for safe access"]
     else []) ++
    (if strContains error_description "AttributeError" then
      ["Check if the object has the attribute using hasattr()",
       "Verify the object type - it might be None or different than expected"]
     else []) ++
    ["Add print statements to debug variable values",
     "Use a debugger or IDE breakpoints",
     "Check variable types with type() function"]
  let db := (save_journal db now "coding_agent"
    ("Debug session: " ++ error_description) (some ["debug", "python", "error"])).1
  (db, { status := "success", suggestions := suggestions,
         code_snippet := code_snippet, error := error_description })

/-- Result dictionary of `generate_test_cases`. -/
structure TestCasesResult where
  status : String
  test_code : String
  function_name : String
  test_count : Int
deriving Repr, DecidableEq

/-- Embeds `generate_test_cases(function_name, function_description, test_count=3)`. -/
def generate_test_cases (db : DB) (now : Nat)
    (function_name function_description : String) (test_count : Int) : DB × TestCasesResult :=
  let test_count := max 1 (min 10 test_count)
  let test_code :=
    "import unittest\n\n" ++
      "class Test" ++ pyTitle function_name ++ "(unittest.TestCase):\n\n" ++
      String.join ((List.range test_count.toNat).map (fun i =>
        "    def test_" ++ function_name ++ "_case_" ++ toString (i + 1) ++ "(self):\n" ++
          "        # Test case " ++ toString (i + 1) ++ ": " ++ function_description ++ "\n" ++
          "        # TODO: Add test implementation\n" ++
          "        result = " ++ function_name ++ "(test_input)\n" ++
          "        self.assertEqual(result, expected_output)\n\n")) ++
      "if __name__ == '__main__':\n    unittest.main()"
  let db := (save_journal db now "coding_agent"
    ("Generated test cases for: " ++ function_name) (some ["testing", "unittest", "qa"])).1
  (db, { status := "success", test_code := test_code,
         function_name := function_name, test_count := test_count })

/-- Result dictionary of `save_code_snippet`. -/
structure SnippetResult where
  status : String
  title : String
  language : String
deriving Repr, DecidableEq

/-- Embeds `save_code_snippet(title, code, language="python", tags="")`. -/
def save_code_snippet (db : DB) (now : Nat) (title code language tags : String) :
    DB × SnippetResult :=
  let tag_list := (if tags = "" then [] else pySplit tags ',') ++ ["snippet", language]
  let snippet_entry := "TITLE: " ++ title ++ "\nLANGUAGE: " ++ language ++ "\nCODE:\n" ++ code
  let db := (save_journal db now "coding_agent" snippet_entry (some tag_list)).1
  (db, { status := "saved", title := title, language := language })

/-- One history dictionary of `get_coding_history`. -/
structure CodingHistoryItem where
  id : Nat
  entry : String
  tags : String
  created_at : Nat
deriving Repr, DecidableEq

/-- Result dictionary of `get_coding_history`. -/
structure CodingHistoryResult where
  status : String
  history : List CodingHistoryItem
  count : Nat
deriving Repr, DecidableEq

/-- Embeds `get_coding_history(limit=10)`. -/
def get_coding_history (db : DB) (lim : Int) : CodingHistoryResult :=
  let lim := max 1 (min 50 lim)
  let history := (list_journals db lim).filterMap (fun row =>
    if row.agent == "coding_agent" then
      some ({ id := row.id, entry := row.entry, tags := row.tags,
              created_at := row.created_at } : CodingHistoryItem)
    else none)
  { status := "success", history := history, count := history.length }

/-! ### Append sequences and the well-formedness invariant -/

/-- One conversation turn to append (`save_agent_response` arguments). -/
structure TurnIn where
  user_message : String
  agent_response : String
  session_id : Option String
  now : Nat
deriving Repr, DecidableEq

/-- Appends a sequence of conversation turns for one agent, in order. -/
def appendConvTurns (db : DB) (agent : String) (ts : List TurnIn) : DB :=
  ts.foldl (fun d t =>
    (save_agent_response d t.now agent t.user_message t.agent_response t.session_id).1) db

/-- One journal entry to append (`save_journal` arguments). -/
structure JournalIn where
  owner : String
  entry : String
  tags : Option (List String)
  now : Nat
deriving Repr, DecidableEq

/-- Appends a sequence of journal entries, in order. -/
def appendJournals (db : DB) (js : List JournalIn) : DB :=
  js.foldl (fun d j => (save_journal d j.now j.owner j.entry j.tags).1) db

/-- Rows in strictly ascending key order (the shape every reachable,
append-only table has: insertion order agrees with id order). -/
def AscBy {α : Type*} (key : α → Nat) (l : List α) : Prop :=
  l.Pairwise (fun a b => key a < key b)

/-- Well-formedness of a database state: each table is in strictly
ascending id order. Every state reachable by the append operations from
`emptyDB` satisfies it. -/
def WF (db : DB) : Prop :=
  AscBy (·.id) (journalsOf db) ∧ AscBy (·.id) (playlistsOf db) ∧
    AscBy (·.id) (responsesOf db)

/-- The rows of the `agent_responses` table belonging to one agent. -/
def convRowsFor (db : DB) (agent : String) : List ResponseRow :=
  (responsesOf db).filter (fun r => r.agent == agent)

/-- The last `k` elements of a list, in order. -/
def lastN {α : Type*} (k : Nat) (l : List α) : List α :=
  l.drop (l.length - k)

/-- The status vocabulary of the tool-call boundary. -/
def statusVocab : List String :=
  ["success", "error", "saved", "ok"]

/-- The inputs on which the unpacking loop of `generate_django_model` does
not raise: every comma-separated field item that contains a colon splits
into exactly two parts. -/
def djangoFieldsOk (fields : String) : Prop :=
  ∀ f ∈ pySplit fields ',', strContains f ":" = true → (pySplit (pyStrip f) ':').length = 2

/-! ### Lemmas: sorting, limits and well-formedness -/

theorem lt_nextId {α : Type*} (key : α → Nat) (rows : List α) (r : α) (h : r ∈ rows) :
    key r < nextId key rows := by
  have hle : key r ≤ rows.foldr (fun x m => max (key x) m) 0 := by
    induction rows with
    | nil => cases h
    | cons x xs ih =>
      simp only [List.foldr]
      rcases List.mem_cons.mp h with rfl | hx
      · exact Nat.le_max_left _ _
      · exact le_trans (ih hx) (Nat.le_max_right _ _)
  unfold nextId
  omega

theorem insertDescBy_of_lt {α : Type*} (key : α → Nat) (r : α) (l : List α)
    (h : ∀ x ∈ l, key r < key x) :
    insertDescBy key r l = l ++ [r] := by
  induction l with
  | nil => rfl
  | cons x xs ih =>
    have hx := h x (List.mem_cons_self x xs)
    rw [insertDescBy, if_neg (by omega), ih (fun y hy => h y (List.mem_cons_of_mem x hy))]
    simp

theorem sortDescBy_of_asc {α : Type*} (key : α → Nat) (l : List α) (h : AscBy key l) :
    sortDescBy key l = l.reverse := by
  induction l with
  | nil => rfl
  | cons x xs ih =>
    rw [AscBy, List.pairwise_cons] at h
    have hstep : sortDescBy key (x :: xs) = insertDescBy key x (sortDescBy key xs) := rfl
    rw [hstep, ih h.2,
      insertDescBy_of_lt key x xs.reverse (fun y hy => h.1 y (List.mem_reverse.mp hy))]
    simp

theorem queryDescLimit_of_asc {α : Type*} (key : α → Nat) (l : List α) (lim : Int)
    (h : AscBy key l) (hlim : 0 ≤ lim) :
    queryDescLimit key l lim = (lastN lim.toNat l).reverse := by
  unfold queryDescLimit lastN
  rw [if_neg (by omega), sortDescBy_of_asc key l h, List.take_reverse]

theorem queryDescLimit_all {α : Type*} (key : α → Nat) (l : List α) (lim : Int)
    (h : AscBy key l) (hlim : (l.length : Int) ≤ lim) :
    queryDescLimit key l lim = l.reverse := by
  have h0 : 0 ≤ lim := le_trans (Int.ofNat_nonneg _) hlim
  unfold queryDescLimit
  rw [if_neg (by omega), sortDescBy_of_asc key l h, List.take_of_length_le]
  rw [List.length_reverse]
  omega

theorem AscBy.append_single {α : Type*} {key : α → Nat} {l : List α} (h : AscBy key l)
    {r : α} (hr : ∀ x ∈ l, key x < key r) :
    AscBy key (l ++ [r]) := by
  unfold AscBy at *
  rw [List.pairwise_append]
  refine ⟨h, List.pairwise_singleton _ _, fun a ha b hb => ?_⟩
  rcases List.mem_singleton.mp hb with rfl
  exact hr a ha

theorem AscBy.keys_nodup {α : Type*} {key : α → Nat} {l : List α} (h : AscBy key l) :
    (l.map key).Nodup := by
  exact List.pairwise_map.mpr (h.imp (fun hab => Nat.ne_of_lt hab))

theorem journalsOf_init (db : DB) : journalsOf (init_db db) = journalsOf db := rfl

theorem playlistsOf_init (db : DB) : playlistsOf (init_db db) = playlistsOf db := rfl

theorem responsesOf_init (db : DB) : responsesOf (init_db db) = responsesOf db := rfl

theorem save_journal_tables (db : DB) (now : Nat) (agent entry : String)
    (tags : Option (List String)) :
    journalsOf (save_journal db now agent entry tags).1 =
      journalsOf db ++
        [{ id := nextId (·.id) (journalsOf db), agent := agent, entry := entry,
           tags := jsonDumpsOpt tags, created_at := now }] ∧
    playlistsOf (save_journal db now agent entry tags).1 = playlistsOf db ∧
    responsesOf (save_journal db now agent entry tags).1 = responsesOf db :=
  ⟨rfl, rfl, rfl⟩

theorem save_playlist_tables (db : DB) (now : Nat) (name : String) (items : List String) :
    playlistsOf (save_playlist db now name items).1 =
      playlistsOf db ++
        [{ id := nextId (·.id) (playlistsOf db), name := name,
           items := jsonDumpsList items, created_at := now }] ∧
    journalsOf (save_playlist db now name items).1 = journalsOf db ∧
    responsesOf (save_playlist db now name items).1 = responsesOf db :=
  ⟨rfl, rfl, rfl⟩

theorem save_agent_response_tables (db : DB) (now : Nat)
    (agent user_message agent_response : String) (session_id : Option String) :
    responsesOf (save_agent_response db now agent user_message agent_response session_id).1 =
      responsesOf db ++
        [{ id := nextId (·.id) (responsesOf db), agent := agent,
           user_message := user_message, agent_response := agent_response,
           session_id := session_id, created_at := now }] ∧
    journalsOf (save_agent_response db now agent user_message agent_response session_id).1 =
      journalsOf db ∧
    playlistsOf (save_agent_response db now agent user_message agent_response session_id).1 =
      playlistsOf db :=
  ⟨rfl, rfl, rfl⟩

theorem WF_emptyDB : WF emptyDB :=
  ⟨List.Pairwise.nil, List.Pairwise.nil, List.Pairwise.nil⟩

theorem WF_save_journal {db : DB} (h : WF db) (now : Nat) (agent entry : String)
    (tags : Option (List String)) :
    WF (save_journal db now agent entry tags).1 := by
  obtain ⟨h1, h2, h3⟩ := h
  obtain ⟨e1, e2, e3⟩ := save_journal_tables db now agent entry tags
  refine ⟨?_, ?_, ?_⟩
  · rw [e1]
    exact h1.append_single (fun x hx => lt_nextId _ _ x hx)
  · rw [e2]; exact h2
  · rw [e3]; exact h3

theorem WF_save_playlist {db : DB} (h : WF db) (now : Nat) (name : String)
    (items : List String) :
    WF (save_playlist db now name items).1 := by
  obtain ⟨h1, h2, h3⟩ := h
  obtain ⟨e1, e2, e3⟩ := save_playlist_tables db now name items
  refine ⟨?_, ?_, ?_⟩
  · rw [e2]; exact h1
  · rw [e1]
    exact h2.append_single (fun x hx => lt_nextId _ _ x hx)
  · rw [e3]; exact h3

theorem WF_save_agent_response {db : DB} (h : WF db) (now : Nat)
    (agent user_message agent_response : String) (session_id : Option String) :
    WF (save_agent_response db now agent user_message agent_response session_id).1 := by
  obtain ⟨h1, h2, h3⟩ := h
  obtain ⟨e1, e2, e3⟩ := save_agent_response_tables db now agent user_message agent_response session_id
  refine ⟨?_, ?_, ?_⟩
  · rw [e2]; exact h1
  · rw [e3]; exact h2
  · rw [e1]
    exact h3.append_single (fun x hx => lt_nextId _ _ x hx)

theorem lastN_append_right {α : Type*} (k : Nat) (A B : List α) (h : k ≤ B.length) :
    lastN k (A ++ B) = lastN k B := by
  unfold lastN
  rw [List.length_append, show A.length + B.length - k = A.length + (B.length - k) by omega]
  exact List.drop_append _

theorem lastN_map {α β : Type*} (f : α → β) (k : Nat) (l : List α) :
    (lastN k l).map f = lastN k (l.map f) := by
  unfold lastN
  rw [List.map_drop, List.length_map]

theorem appendConvTurns_spec (agent : String) (ts : List TurnIn) :
    ∀ db : DB, ∃ new : List ResponseRow,
      responsesOf (appendConvTurns db agent ts) = responsesOf db ++ new ∧
      new.map (fun r => (r.user_message, r.agent_response, r.session_id, r.created_at)) =
        ts.map (fun t => (t.user_message, t.agent_response, t.session_id, t.now)) ∧
      (∀ r ∈ new, r.agent = agent) ∧
      (WF db → WF (appendConvTurns db agent ts)) ∧
      journalsOf (appendConvTurns db agent ts) = journalsOf db ∧
      playlistsOf (appendConvTurns db agent ts) = playlistsOf db := by
  induction ts with
  | nil =>
    intro db
    exact ⟨[], by simp [appendConvTurns], by simp, by simp, fun h => h, rfl, rfl⟩
  | cons t ts ih =>
    intro db
    set db1 := (save_agent_response db t.now agent t.user_message t.agent_response t.session_id).1 with hdb1
    have hfold : appendConvTurns db agent (t :: ts) = appendConvTurns db1 agent ts := rfl
    obtain ⟨new, h1, h2, h3, h4, h5, h6⟩ := ih db1
    obtain ⟨e1, e2, e3⟩ :=
      save_agent_response_tables db t.now agent t.user_message t.agent_response t.session_id
    refine ⟨{ id := nextId (·.id) (responsesOf db), agent := agent,
              user_message := t.user_message, agent_response := t.agent_response,
              session_id := t.session_id, created_at := t.now } :: new, ?_, ?_, ?_, ?_, ?_, ?_⟩
    · rw [hfold, h1, hdb1, e1]
      simp
    · simpa using h2
    · intro r hr
      rcases List.mem_cons.mp hr with rfl | hr
      · rfl
      · exact h3 r hr
    · intro hwf
      rw [hfold]
      exact h4 (WF_save_agent_response hwf _ _ _ _ _)
    · rw [hfold, h5, hdb1, e2]
    · rw [hfold, h6, hdb1, e3]

theorem appendJournals_spec (js : List JournalIn) :
    ∀ db : DB, ∃ new : List JournalRow,
      journalsOf (appendJournals db js) = journalsOf db ++ new ∧
      new.map (fun r => (r.agent, r.entry, r.tags, r.created_at)) =
        js.map (fun j => (j.owner, j.entry, jsonDumpsOpt j.tags, j.now)) ∧
      (WF db → WF (appendJournals db js)) ∧
      playlistsOf (appendJournals db js) = playlistsOf db ∧
      responsesOf (appendJournals db js) = responsesOf db := by
  induction js with
  | nil =>
    intro db
    exact ⟨[], by simp [appendJournals], by simp, fun h => h, rfl, rfl⟩
  | cons j js ih =>
    intro db
    set db1 := (save_journal db j.now j.owner j.entry j.tags).1 with hdb1
    have hfold : appendJournals db (j :: js) = appendJournals db1 js := rfl
    obtain ⟨new, h1, h2, h3, h4, h5⟩ := ih db1
    obtain ⟨e1, e2, e3⟩ := save_journal_tables db j.now j.owner j.entry j.tags
    refine ⟨{ id := nextId (·.id) (journalsOf db), agent := j.owner, entry := j.entry,
              tags := jsonDumpsOpt j.tags, created_at := j.now } :: new, ?_, ?_, ?_, ?_, ?_⟩
    · rw [hfold, h1, hdb1, e1]
      simp
    · simpa using h2
    · intro hwf
      rw [hfold]
      exact h3 (WF_save_journal hwf _ _ _ _)
    · rw [hfold, h4, hdb1, e2]
    · rw [hfold, h5, hdb1, e3]

/-! ### Lemmas: SQLite LIKE and substring containment -/

theorem likeMatch_percent_iff (p s : List Char) :
    likeMatch ('%' :: p) s = true ↔ ∃ t, t <:+ s ∧ likeMatch p t = true := by
  simp [likeMatch, List.any_eq_true, List.mem_tails]

theorem likeMatch_percent_univ (s : List Char) : likeMatch ['%'] s = true := by
  rw [likeMatch_percent_iff]
  exact ⟨[], List.nil_suffix, by decide⟩

theorem likeMatch_percent_intro (p s : List Char) (h : likeMatch p s = true) :
    likeMatch ('%' :: p) s = true :=
  (likeMatch_percent_iff p s).mpr ⟨s, List.suffix_refl s, h⟩

theorem likeMatch_percent_skip (p : List Char) (a : List Char) {s : List Char}
    (h : likeMatch ('%' :: p) s = true) :
    likeMatch ('%' :: p) (a ++ s) = true := by
  rw [likeMatch_percent_iff] at h ⊢
  obtain ⟨t, hts, hm⟩ := h
  exact ⟨t, hts.trans (List.suffix_append a s), hm⟩

theorem likeMatch_append_lit (t : List Char) (p s : List Char) (h : likeMatch p s = true) :
    likeMatch (t ++ p) (t ++ s) = true := by
  induction t with
  | nil => simpa
  | cons c t ih =>
    by_cases hc1 : c = '%'
    · subst hc1
      exact (likeMatch_percent_iff _ _).mpr ⟨t ++ s, List.suffix_cons _ _, ih⟩
    · by_cases hc2 : c = '_'
      · subst hc2
        simpa [likeMatch] using ih
      · simpa [likeMatch, hc1, hc2] using ih

theorem startsWithList_exists {l p : List Char} (h : startsWithList l p = true) :
    ∃ t, l = p ++ t := by
  induction p generalizing l with
  | nil => exact ⟨l, rfl⟩
  | cons c p ih =>
    cases l with
    | nil => simp [startsWithList] at h
    | cons x l =>
      simp only [startsWithList, Bool.and_eq_true, beq_iff_eq] at h
      obtain ⟨rfl, h2⟩ := h
      obtain ⟨t, rfl⟩ := ih h2
      exact ⟨t, rfl⟩

theorem containsList_exists {l t : List Char} (h : containsList l t = true) :
    ∃ a b, l = a ++ t ++ b := by
  induction l with
  | nil =>
    simp [containsList, List.isEmpty_iff] at h
    exact ⟨[], [], by simp [h]⟩
  | cons c l ih =>
    simp only [containsList, Bool.or_eq_true] at h
    rcases h with h | h
    · obtain ⟨b, hb⟩ := startsWithList_exists h
      exact ⟨[], b, by simp [hb]⟩
    · obtain ⟨a, b, rfl⟩ := ih h
      exact ⟨c :: a, b, by simp⟩

theorem strContains_implies_like {s term : String} (h : strContains s term = true) :
    sqliteLike ("%" ++ term ++ "%") s = true := by
  obtain ⟨a, b, hab⟩ := containsList_exists h
  unfold sqliteLike
  have hdata : ("%" ++ term ++ "%").data = '%' :: (term.data ++ ['%']) := by
    simp [String.data_append]
  rw [hdata, hab]
  have h2 : likeMatch (term.data ++ ['%']) (term.data ++ b) = true :=
    likeMatch_append_lit _ _ _ (likeMatch_percent_univ b)
  have h3 : likeMatch ('%' :: (term.data ++ ['%'])) (term.data ++ b) = true :=
    likeMatch_percent_intro _ _ h2
  have h4 := likeMatch_percent_skip _ a h3
  simpa [List.append_assoc] using h4

/-! ### Lemmas: the JSON round-trip -/

theorem hexVal_hexDigit : ∀ d : Nat, d < 16 → hexVal (hexDigit d) = some d := by decide

theorem charValidity (c : Char) : c.toNat < 55296 ∨ (57343 < c.toNat ∧ c.toNat < 1114112) := by
  have h := c.valid
  unfold UInt32.isValidChar Nat.isValidChar at h
  exact h

theorem unescapeUnits_u (v : Nat) (rest : List Char) (hv : v < 65536) :
    unescapeUnits ('\\' :: 'u' :: (hex4 v ++ rest)) =
      (unescapeUnits rest).map (fun q => (v :: q.1, q.2)) := by
  simp only [hex4, List.cons_append, List.nil_append]
  simp only [unescapeUnits]
  rw [hexVal_hexDigit _ (Nat.mod_lt _ (by omega)), hexVal_hexDigit _ (Nat.mod_lt _ (by omega)),
    hexVal_hexDigit _ (Nat.mod_lt _ (by omega)), hexVal_hexDigit _ (Nat.mod_lt _ (by omega))]
  have hval : ((v / 4096 % 16 * 16 + v / 256 % 16) * 16 + v / 16 % 16) * 16 + v % 16 = v := by
    omega
  simp only [hval]

set_option maxHeartbeats 2000000 in
theorem unescapeUnits_raw (c : Char) (rest : List Char) (h1 : c ≠ '"') (h2 : c ≠ '\\') :
    unescapeUnits (c :: rest) = (unescapeUnits rest).map (fun q => (c.toNat :: q.1, q.2)) := by
  rw [unescapeUnits.eq_def]
  split <;> simp_all

theorem unescapeUnits_escapeChar (c : Char) (rest : List Char) :
    unescapeUnits (escapeChar c ++ rest) =
      (unescapeUnits rest).map (fun q => (unitsOf c ++ q.1, q.2)) := by
  by_cases h1 : c = '"'
  · subst h1
    simp [escapeChar, unescapeUnits, unitsOf]
  by_cases h2 : c = '\\'
  · subst h2
    simp [escapeChar, h1, unescapeUnits, unitsOf]
  by_cases h3 : c = '\n'
  · subst h3
    simp [escapeChar, h1, h2, unescapeUnits, unitsOf]
  by_cases h4 : c = '\r'
  · subst h4
    simp [escapeChar, h1, h2, h3, unescapeUnits, unitsOf]
  by_cases h5 : c = '\t'
  · subst h5
    simp [escapeChar, h1, h2, h3, h4, unescapeUnits, unitsOf]
  by_cases h6 : c.toNat = 8
  · have hc : Char.ofNat 8 = c := by rw [← h6, Char.ofNat_toNat]
    simp only [escapeChar, h1, h2, h3, h4, h5, h6, if_neg, if_pos, ite_false, ite_true,
      List.cons_append, List.nil_append]
    simp [unescapeUnits, unitsOf, ← hc]
  by_cases h7 : c.toNat = 12
  · have hc : Char.ofNat 12 = c := by rw [← h7, Char.ofNat_toNat]
    simp only [escapeChar, h1, h2, h3, h4, h5, h6, h7, if_neg, if_pos, ite_false, ite_true,
      List.cons_append, List.nil_append]
    simp [unescapeUnits, unitsOf, ← hc]
  by_cases h8 : c.toNat < 32
  · have he : escapeChar c = '\\' :: 'u' :: hex4 c.toNat := by
      simp [escapeChar, h1, h2, h3, h4, h5, h6, h7, h8]
    rw [he, show ('\\' :: 'u' :: hex4 c.toNat) ++ rest = '\\' :: 'u' :: (hex4 c.toNat ++ rest) by simp,
      unescapeUnits_u _ _ (by omega)]
    simp [unitsOf, show c.toNat < 65536 by omega]
  by_cases h9 : c.toNat ≤ 126
  · have he : escapeChar c = [c] := by
      simp [escapeChar, h1, h2, h3, h4, h5, h6, h7, h8, h9]
    rw [he, List.singleton_append, unescapeUnits_raw c rest h1 h2]
    simp [unitsOf, show c.toNat < 65536 by omega]
  by_cases h10 : c.toNat < 65536
  · have he : escapeChar c = '\\' :: 'u' :: hex4 c.toNat := by
      simp [escapeChar, h1, h2, h3, h4, h5, h6, h7, h8, h9, h10]
    rw [he, show ('\\' :: 'u' :: hex4 c.toNat) ++ rest = '\\' :: 'u' :: (hex4 c.toNat ++ rest) by simp,
      unescapeUnits_u _ _ h10]
    simp [unitsOf, h10]
  · have hval := charValidity c
    have he : escapeChar c =
        ('\\' :: 'u' :: hex4 (55296 + (c.toNat - 65536) / 1024)) ++
          ('\\' :: 'u' :: hex4 (56320 + (c.toNat - 65536) % 1024)) := by
      simp [escapeChar, h1, h2, h3, h4, h5, h6, h7, h8, h9, h10]
    rw [he]
    have hsplit :
        (('\\' :: 'u' :: hex4 (55296 + (c.toNat - 65536) / 1024)) ++
            ('\\' :: 'u' :: hex4 (56320 + (c.toNat - 65536) % 1024))) ++ rest =
          '\\' :: 'u' :: (hex4 (55296 + (c.toNat - 65536) / 1024) ++
            ('\\' :: 'u' :: (hex4 (56320 + (c.toNat - 65536) % 1024) ++ rest))) := by
      simp
    rw [hsplit, unescapeUnits_u _ _ (by omega), unescapeUnits_u _ _ (by omega)]
    simp [unitsOf, h10, Option.map_map]
    rfl


theorem unescapeUnits_escapeList (cs : List Char) (rest : List Char) :
    unescapeUnits (escapeList cs ++ ('"' :: rest)) = some (cs.flatMap unitsOf, rest) := by
  induction cs with
  | nil => simp [escapeList, unescapeUnits]
  | cons c cs ih =>
    have hstep : escapeList (c :: cs) = escapeChar c ++ escapeList cs := by
      simp [escapeList]
    rw [hstep, List.append_assoc, unescapeUnits_escapeChar, ih]
    simp

theorem combineUnits_unitsOf (c : Char) (us : List Nat) :
    combineUnits (unitsOf c ++ us) = (combineUnits us).map (fun cs => c :: cs) := by
  have hval := charValidity c
  unfold unitsOf
  by_cases hv : c.toNat < 65536
  · rw [if_pos hv, List.singleton_append]
    cases us with
    | nil =>
      simp only [combineUnits]
      rw [if_neg (by omega), Char.ofNat_toNat]
      rfl
    | cons m us2 =>
      simp only [combineUnits]
      rw [if_neg (by omega), if_neg (by omega), Char.ofNat_toNat]
  · rw [if_neg hv]
    simp only [List.cons_append, List.nil_append]
    set hi := 55296 + (c.toNat - 65536) / 1024 with hhi
    set lo := 56320 + (c.toNat - 65536) % 1024 with hlo
    have hq : (c.toNat - 65536) / 1024 < 1024 := by omega
    have hhiB : 55296 ≤ hi ∧ hi < 56320 := by omega
    have hloB : 56320 ≤ lo ∧ lo < 57344 := by omega
    have hcomb : 65536 + (hi - 55296) * 1024 + (lo - 56320) = c.toNat := by omega
    simp only [combineUnits]
    rw [if_pos hhiB, if_pos hloB, hcomb, Char.ofNat_toNat]


theorem combineUnits_flatMap (cs : List Char) :
    combineUnits (cs.flatMap unitsOf) = some cs := by
  induction cs with
  | nil => rfl
  | cons c cs ih =>
    rw [List.flatMap_cons, combineUnits_unitsOf, ih]
    rfl

theorem parseStringBody_escapeList (cs : List Char) (rest : List Char) :
    parseStringBody (escapeList cs ++ ('"' :: rest)) = some (cs, rest) := by
  unfold parseStringBody
  rw [unescapeUnits_escapeList]
  show (combineUnits (cs.flatMap unitsOf)).map (fun chars => (chars, rest)) = some (cs, rest)
  rw [combineUnits_flatMap]
  rfl

theorem joinCommaSpace_length (l : List String) :
    l.length ≤ (joinCommaSpace (l.map jsonDumpsString)).data.length + 1 := by
  induction l with
  | nil => simp
  | cons x l ih =>
    cases l with
    | nil => simp
    | cons y ys =>
      have hstep : joinCommaSpace ((x :: y :: ys).map jsonDumpsString) =
          jsonDumpsString x ++ ", " ++ joinCommaSpace ((y :: ys).map jsonDumpsString) := by
        simp [joinCommaSpace]
      rw [hstep]
      simp only [String.data_append, List.length_append, List.length_cons] at *
      omega

theorem parseItems_dumps (xs : List String) :
    ∀ (x : String) (fuel : Nat), (x :: xs).length ≤ fuel →
      parseItems fuel ((joinCommaSpace ((x :: xs).map jsonDumpsString)).data ++ [']']) =
        some (x :: xs) := by
  induction xs with
  | nil =>
    intro x fuel hf
    obtain ⟨f, rfl⟩ : ∃ f, fuel = f + 1 := ⟨fuel - 1, by simp at hf; omega⟩
    have hdata : (joinCommaSpace ([x].map jsonDumpsString)).data ++ [']'] =
        '"' :: (escapeList x.data ++ ('"' :: [']'])) := by
      simp [joinCommaSpace, jsonDumpsString]
    rw [hdata]
    simp only [parseItems]
    rw [parseStringBody_escapeList]
    rfl
  | cons y ys ih =>
    intro x fuel hf
    obtain ⟨f, rfl⟩ : ∃ f, fuel = f + 1 := ⟨fuel - 1, by simp at hf; omega⟩
    have hdata : (joinCommaSpace ((x :: y :: ys).map jsonDumpsString)).data ++ [']'] =
        '"' :: (escapeList x.data ++
          ('"' :: ',' :: ' ' :: ((joinCommaSpace ((y :: ys).map jsonDumpsString)).data ++ [']']))) := by
      have hstep : joinCommaSpace ((x :: y :: ys).map jsonDumpsString) =
          jsonDumpsString x ++ ", " ++ joinCommaSpace ((y :: ys).map jsonDumpsString) := by
        simp [joinCommaSpace]
      rw [hstep]
      simp [jsonDumpsString, String.data_append]
    rw [hdata]
    simp only [parseItems]
    rw [parseStringBody_escapeList]
    show (parseItems f ((joinCommaSpace ((y :: ys).map jsonDumpsString)).data ++ [']'])).map
        (fun xs => String.mk x.data :: xs) = some (x :: y :: ys)
    rw [ih y f (by simp at hf ⊢; omega)]
    rfl

theorem jsonLoadsList_jsonDumpsList (xs : List String) :
    jsonLoadsList (jsonDumpsList xs) = some xs := by
  cases xs with
  | nil => rfl
  | cons x xs =>
    have hbody : ∃ t, (joinCommaSpace ((x :: xs).map jsonDumpsString)).data = '"' :: t := by
      cases xs with
      | nil => exact ⟨escapeList x.data ++ ['"'], by simp [joinCommaSpace, jsonDumpsString]⟩
      | cons y ys =>
        refine ⟨escapeList x.data ++ ['"'] ++ (", " ++ joinCommaSpace ((y :: ys).map jsonDumpsString)).data, ?_⟩
        have hstep : joinCommaSpace ((x :: y :: ys).map jsonDumpsString) =
            jsonDumpsString x ++ ", " ++ joinCommaSpace ((y :: ys).map jsonDumpsString) := by
          simp [joinCommaSpace]
        rw [hstep]
        simp [jsonDumpsString, String.data_append]
    obtain ⟨t, ht⟩ := hbody
    have hdata : (jsonDumpsList (x :: xs)).data = '[' :: ('"' :: (t ++ [']'])) := by
      unfold jsonDumpsList
      simp only [List.map_cons] at ht
      simp [String.data_append, ht]
    unfold jsonLoadsList
    rw [hdata]
    have hlen : (x :: xs).length ≤ ('"' :: (t ++ [']'])).length := by
      have := joinCommaSpace_length (x :: xs)
      rw [ht] at this
      simp at this ⊢
      omega
    have := parseItems_dumps xs x (('"' :: (t ++ [']'])).length) hlen
    rw [ht] at this
    simpa using this

/-! ### Lemmas: membership in query results -/

theorem mem_insertDescBy {α : Type*} (key : α → Nat) (r x : α) (l : List α) :
    x ∈ insertDescBy key r l ↔ x = r ∨ x ∈ l := by
  induction l with
  | nil => simp [insertDescBy]
  | cons y ys ih =>
    rw [insertDescBy]
    by_cases h : key y ≤ key r
    · rw [if_pos h]
      simp [List.mem_cons]
    · rw [if_neg h]
      simp only [List.mem_cons, ih]
      tauto

theorem mem_sortDescBy {α : Type*} (key : α → Nat) (x : α) (l : List α) :
    x ∈ sortDescBy key l ↔ x ∈ l := by
  induction l with
  | nil => simp [sortDescBy]
  | cons y ys ih =>
    have hstep : sortDescBy key (y :: ys) = insertDescBy key y (sortDescBy key ys) := rfl
    rw [hstep, mem_insertDescBy]
    simp [ih, List.mem_cons]

theorem mem_queryDescLimit {α : Type*} {key : α → Nat} {x : α} {l : List α} {lim : Int}
    (h : x ∈ queryDescLimit key l lim) : x ∈ l := by
  unfold queryDescLimit at h
  by_cases h0 : lim < 0
  · rw [if_pos h0] at h
    exact (mem_sortDescBy _ _ _).mp h
  · rw [if_neg h0] at h
    exact (mem_sortDescBy _ _ _).mp (List.mem_of_mem_take h)

/-! ### Claim C9: `ensure_schema` is idempotent -/

/-- C9: `ensure_schema()` (the embedded `init_db`) is idempotent: calling
it twice from any store state equals calling it once — no error, no data
loss, and subsequent reads and appends return the same results. -/
theorem ensure_schema_idempotent (db : DB) :
    init_db (init_db db) = init_db db ∧
    journalsOf (init_db db) = journalsOf db ∧
    playlistsOf (init_db db) = playlistsOf db ∧
    responsesOf (init_db db) = responsesOf db ∧
    (∀ lim, list_journals (init_db (init_db db)) lim = list_journals (init_db db) lim) ∧
    (∀ now agent entry tags,
      save_journal (init_db (init_db db)) now agent entry tags =
        save_journal (init_db db) now agent entry tags) :=
  ⟨rfl, rfl, rfl, rfl, fun _ => rfl, fun _ _ _ _ => rfl⟩

/-! ### Claim C3: the memory tool clamps its limit to [1, 10] -/

/-- C3: the per-owner memory accessor produced by `get_memory_tool` clamps
its limit argument to the range [1, 10]: limit 999 behaves as limit 10,
and limit 0 or any negative limit behaves as limit 1. -/
theorem get_memory_clamps_limit (db : DB) (agent_name : String) :
    get_memory db agent_name 999 = get_memory db agent_name 10 ∧
    get_memory db agent_name 0 = get_memory db agent_name 1 ∧
    (∀ lim : Int, lim < 0 → get_memory db agent_name lim = get_memory db agent_name 1) := by
  have key : ∀ l1 l2 : Int, max 1 (min 10 l1) = max 1 (min 10 l2) →
      get_memory db agent_name l1 = get_memory db agent_name l2 := by
    intro l1 l2 h
    unfold get_memory
    rw [h]
  exact ⟨key _ _ (by omega), key _ _ (by omega), fun lim hl => key _ _ (by omega)⟩

/-- Witness for C3 at a concrete negative limit. -/
theorem get_memory_clamps_limit_witness :
    (-5 : Int) < 0 ∧
    get_memory emptyDB "multi_tool_agent" (-5) = get_memory emptyDB "multi_tool_agent" 1 :=
  ⟨by decide, (get_memory_clamps_limit emptyDB "multi_tool_agent").2.2 (-5) (by decide)⟩

/-! ### Claim C6: the no-history sentinel -/

/-- C6: for an owner with zero stored conversation turns,
`format_memory_for_context` returns the fixed sentinel string for every
limit; it never returns the empty string (and, being total, never
raises). -/
theorem format_context_no_history (db : DB) (agent_name : String) (lim : Int)
    (h : convRowsFor db agent_name = []) :
    format_memory_for_context db agent_name lim = "No previous conversation history." ∧
      format_memory_for_context db agent_name lim ≠ "" := by
  have hg : get_recent_conversations db agent_name lim = [] := by
    unfold get_recent_conversations get_agent_memory
    have hfil : (responsesOf (init_db db)).filter (fun r => r.agent == agent_name) = [] := h
    rw [hfil]
    unfold queryDescLimit sortDescBy
    simp
  have hfmt : format_memory_for_context db agent_name lim =
      "No previous conversation history." := by
    unfold format_memory_for_context
    rw [hg]
    rfl
  exact ⟨hfmt, by rw [hfmt]; decide⟩

/-- Witness for C6: a store holding one turn of a different owner. -/
theorem format_context_no_history_witness :
    convRowsFor (save_agent_response emptyDB 1 "content_creator_agent" "hi" "hello" none).1
        "learning_coach_agent" = [] ∧
    format_memory_for_context
        (save_agent_response emptyDB 1 "content_creator_agent" "hi" "hello" none).1
        "learning_coach_agent" 5 = "No previous conversation history." ∧
    format_memory_for_context
        (save_agent_response emptyDB 1 "content_creator_agent" "hi" "hello" none).1
        "learning_coach_agent" 5 ≠ "" :=
  ⟨by decide,
   (format_context_no_history _ "learning_coach_agent" 5 (by decide)).1,
   (format_context_no_history _ "learning_coach_agent" 5 (by decide)).2⟩

/-! ### Claim C8: the store is a strict append-only event stream -/

/-- C8: no operation updates or deletes an existing record — each append
leaves every previously stored row of every table unchanged and adds
exactly one row whose id is strictly greater than every id appended
before it in the same table, keeping the ids unique. (Reads are pure
functions of the state and cannot modify it in this embedding.) -/
theorem store_append_only (db : DB) (hwf : WF db) :
    (∀ now agent entry tags, ∃ row : JournalRow,
      journalsOf (save_journal db now agent entry tags).1 = journalsOf db ++ [row] ∧
      playlistsOf (save_journal db now agent entry tags).1 = playlistsOf db ∧
      responsesOf (save_journal db now agent entry tags).1 = responsesOf db ∧
      (∀ r ∈ journalsOf db, r.id < row.id) ∧
      WF (save_journal db now agent entry tags).1 ∧
      ((journalsOf (save_journal db now agent entry tags).1).map (·.id)).Nodup) ∧
    (∀ now name items, ∃ row : PlaylistRow,
      playlistsOf (save_playlist db now name items).1 = playlistsOf db ++ [row] ∧
      journalsOf (save_playlist db now name items).1 = journalsOf db ∧
      responsesOf (save_playlist db now name items).1 = responsesOf db ∧
      (∀ r ∈ playlistsOf db, r.id < row.id) ∧
      WF (save_playlist db now name items).1 ∧
      ((playlistsOf (save_playlist db now name items).1).map (·.id)).Nodup) ∧
    (∀ now agent user_message agent_response session_id, ∃ row : ResponseRow,
      responsesOf (save_agent_response db now agent user_message agent_response session_id).1 =
        responsesOf db ++ [row] ∧
      journalsOf (save_agent_response db now agent user_message agent_response session_id).1 =
        journalsOf db ∧
      playlistsOf (save_agent_response db now agent user_message agent_response session_id).1 =
        playlistsOf db ∧
      (∀ r ∈ responsesOf db, r.id < row.id) ∧
      WF (save_agent_response db now agent user_message agent_response session_id).1 ∧
      ((responsesOf (save_agent_response db now agent user_message agent_response
        session_id).1).map (·.id)).Nodup) := by
  refine ⟨?_, ?_, ?_⟩
  · intro now agent entry tags
    obtain ⟨e1, e2, e3⟩ := save_journal_tables db now agent entry tags
    have hwf2 := WF_save_journal hwf now agent entry tags
    exact ⟨_, e1, e2, e3, fun r hr => lt_nextId _ _ r hr, hwf2, hwf2.1.keys_nodup⟩
  · intro now name items
    obtain ⟨e1, e2, e3⟩ := save_playlist_tables db now name items
    have hwf2 := WF_save_playlist hwf now name items
    exact ⟨_, e1, e2, e3, fun r hr => lt_nextId _ _ r hr, hwf2, hwf2.2.1.keys_nodup⟩
  · intro now agent user_message agent_response session_id
    obtain ⟨e1, e2, e3⟩ :=
      save_agent_response_tables db now agent user_message agent_response session_id
    have hwf2 := WF_save_agent_response hwf now agent user_message agent_response session_id
    exact ⟨_, e1, e2, e3, fun r hr => lt_nextId _ _ r hr, hwf2, hwf2.2.2.keys_nodup⟩

/-- Witness for C8: appending one journal row to the empty store. -/
theorem store_append_only_witness :
    WF emptyDB ∧
    ∃ row : JournalRow,
      journalsOf (save_journal emptyDB 0 "coding_agent" "note" none).1 =
        journalsOf emptyDB ++ [row] ∧
      playlistsOf (save_journal emptyDB 0 "coding_agent" "note" none).1 =
        playlistsOf emptyDB ∧
      responsesOf (save_journal emptyDB 0 "coding_agent" "note" none).1 =
        responsesOf emptyDB ∧
      (∀ r ∈ journalsOf emptyDB, r.id < row.id) ∧
      WF (save_journal emptyDB 0 "coding_agent" "note" none).1 ∧
      ((journalsOf (save_journal emptyDB 0 "coding_agent" "note" none).1).map (·.id)).Nodup :=
  ⟨WF_emptyDB, (store_append_only emptyDB WF_emptyDB).1 0 "coding_agent" "note" none⟩

/-! ### Claim C4: listing journals by owner partitions the store -/

/-- C4: starting from the empty store, after appending journal entries
whose owners are all `a` or `b` (N of them for `a`, M for `b`),
`list_journals_by_owner(a, N + M)` returns exactly the N rows of owner
`a`, ordered by strictly decreasing id. -/
theorem journals_by_owner_partition (a b : String) (hab : a ≠ b)
    (js : List JournalIn) (hall : ∀ j ∈ js, j.owner = a ∨ j.owner = b)
    (db : DB) (N M : Nat) (res : List JournalRow)
    (hdb : db = appendJournals emptyDB js)
    (hN : N = (js.filter (fun j => j.owner == a)).length)
    (hM : M = (js.filter (fun j => j.owner == b)).length)
    (hres : res = get_journals_by_agent db a ((N : Int) + (M : Int))) :
    res.length = N ∧ (∀ r ∈ res, r.agent = a) ∧ res.Pairwise (fun x y => y.id < x.id) := by
  obtain ⟨new, h1, h2, h3, h4, h5⟩ := appendJournals_spec js emptyDB
  subst hdb
  have hjm : journalsOf (appendJournals emptyDB js) = new := by
    simpa using h1
  have hwf : WF (appendJournals emptyDB js) := h3 WF_emptyDB
  have hasc : List.Pairwise (fun r s => r.id < s.id)
      ((journalsOf (appendJournals emptyDB js)).filter (fun r => r.agent == a)) :=
    List.Pairwise.filter _ hwf.1
  have hfiltlen :
      ((journalsOf (appendJournals emptyDB js)).filter (fun r => r.agent == a)).length = N := by
    rw [hjm, hN, ← List.countP_eq_length_filter, ← List.countP_eq_length_filter]
    have hcnew : new.countP (fun r => r.agent == a) =
        (new.map (fun r => (r.agent, r.entry, r.tags, r.created_at))).countP
          (fun q => q.1 == a) := by
      rw [List.countP_map]
      rfl
    have hcjs : js.countP (fun j => j.owner == a) =
        (js.map (fun j => (j.owner, j.entry, jsonDumpsOpt j.tags, j.now))).countP
          (fun q => q.1 == a) := by
      rw [List.countP_map]
      rfl
    rw [hcnew, hcjs, h2]
  have hresq : res = ((journalsOf (appendJournals emptyDB js)).filter
      (fun r => r.agent == a)).reverse := by
    rw [hres]
    unfold get_journals_by_agent
    rw [journalsOf_init]
    exact queryDescLimit_all _ _ _ hasc (by rw [hfiltlen]; omega)
  refine ⟨?_, ?_, ?_⟩
  · rw [hresq, List.length_reverse, hfiltlen]
  · intro r hr
    rw [hresq, List.mem_reverse] at hr
    exact beq_iff_eq.mp (List.mem_filter.mp hr).2
  · rw [hresq, List.pairwise_reverse]
    exact hasc

/-- Witness for C4: two entries for owner A interleaved with one for B. -/
theorem journals_by_owner_partition_witness :
    ("A" : String) ≠ "B" ∧
    (let js : List JournalIn :=
      [{ owner := "A", entry := "e1", tags := none, now := 1 },
       { owner := "B", entry := "e2", tags := none, now := 2 },
       { owner := "A", entry := "e3", tags := none, now := 3 }]
     let res := get_journals_by_agent (appendJournals emptyDB js) "A" ((2 : Int) + (1 : Int))
     res.length = 2 ∧ (∀ r ∈ res, r.agent = "A") ∧ res.Pairwise (fun x y => y.id < x.id)) := by
  refine ⟨by decide, ?_⟩
  exact journals_by_owner_partition "A" "B" (by decide) _ (by decide) _ 2 1 _ rfl (by decide)
    (by decide) rfl

/-! ### Claim C1: `recent_conversation` returns the last K turns, oldest first -/

/-- C1: for every owner and positive limit K, after appending N >= K
conversation turns for that owner, `get_recent_conversations` returns
exactly the last K turns appended for that owner in chronological
(oldest-first) order — the reversal of the newest-first fetch bounded by
K. -/
theorem recent_conversation_returns_last_K (db0 : DB) (agent_name : String)
    (ts : List TurnIn) (K : Int) (db : DB)
    (hwf : WF db0) (hK1 : 1 ≤ K) (hKN : K.toNat ≤ ts.length)
    (hdb : db = appendConvTurns db0 agent_name ts) :
    get_recent_conversations db agent_name K =
      (lastN K.toNat (convRowsFor db agent_name)).map rowToConversation ∧
    (lastN K.toNat (convRowsFor db agent_name)).map
        (fun r => (r.user_message, r.agent_response, r.session_id, r.created_at)) =
      (lastN K.toNat ts).map (fun t => (t.user_message, t.agent_response, t.session_id, t.now)) ∧
    get_recent_conversations db agent_name K =
      ((queryDescLimit (·.id) (convRowsFor db agent_name) K).reverse).map rowToConversation := by
  subst hdb
  obtain ⟨new, h1, h2, h3, h4, h5, h6⟩ := appendConvTurns_spec agent_name ts db0
  have hwf2 : WF (appendConvTurns db0 agent_name ts) := h4 hwf
  have hasc : List.Pairwise (fun r s => r.id < s.id)
      (convRowsFor (appendConvTurns db0 agent_name ts) agent_name) :=
    List.Pairwise.filter _ hwf2.2.2
  have hfetch : get_agent_memory (appendConvTurns db0 agent_name ts) agent_name K =
      lastN K.toNat (convRowsFor (appendConvTurns db0 agent_name ts) agent_name) := by
    unfold get_agent_memory
    rw [responsesOf_init]
    have hcrf : (responsesOf (appendConvTurns db0 agent_name ts)).filter
        (fun r => r.agent == agent_name) =
        convRowsFor (appendConvTurns db0 agent_name ts) agent_name := rfl
    rw [hcrf, queryDescLimit_of_asc _ _ _ hasc (by omega), List.reverse_reverse]
  have hnewlen : new.length = ts.length := by
    have hl := congrArg List.length h2
    simpa using hl
  refine ⟨?_, ?_, ?_⟩
  · show (get_agent_memory (appendConvTurns db0 agent_name ts) agent_name K).map
        rowToConversation = _
    rw [hfetch]
  · have hfilter : convRowsFor (appendConvTurns db0 agent_name ts) agent_name =
        (responsesOf db0).filter (fun r => r.agent == agent_name) ++ new := by
      unfold convRowsFor
      rw [h1, List.filter_append]
      congr 1
      exact List.filter_eq_self.mpr (fun r hr => beq_iff_eq.mpr (h3 r hr))
    rw [hfilter, lastN_append_right _ _ _ (by omega), lastN_map, h2, ← lastN_map]
  · show (get_agent_memory (appendConvTurns db0 agent_name ts) agent_name K).map
        rowToConversation = _
    unfold get_agent_memory
    rw [responsesOf_init]
    rfl

/-- Witness for C1: five turns appended for one owner, K = 3. -/
theorem recent_conversation_returns_last_K_witness :
    WF emptyDB ∧ (1 : Int) ≤ 3 ∧ (3 : Int).toNat ≤ 5 ∧
    (let db := appendConvTurns emptyDB "multi_tool_agent"
        [{ user_message := "u1", agent_response := "r1", session_id := none, now := 1 },
         { user_message := "u2", agent_response := "r2", session_id := none, now := 2 },
         { user_message := "u3", agent_response := "r3", session_id := some "s", now := 3 },
         { user_message := "u4", agent_response := "r4", session_id := none, now := 4 },
         { user_message := "u5", agent_response := "r5", session_id := none, now := 5 }]
     get_recent_conversations db "multi_tool_agent" 3 =
       (lastN (3 : Int).toNat (convRowsFor db "multi_tool_agent")).map rowToConversation ∧
     (lastN (3 : Int).toNat (convRowsFor db "multi_tool_agent")).map
         (fun r => (r.user_message, r.agent_response, r.session_id, r.created_at)) =
       (lastN (3 : Int).toNat
           [({ user_message := "u1", agent_response := "r1", session_id := none,
               now := 1 } : TurnIn),
            { user_message := "u2", agent_response := "r2", session_id := none, now := 2 },
            { user_message := "u3", agent_response := "r3", session_id := some "s", now := 3 },
            { user_message := "u4", agent_response := "r4", session_id := none, now := 4 },
            { user_message := "u5", agent_response := "r5", session_id := none,
              now := 5 }]).map
         (fun t => (t.user_message, t.agent_response, t.session_id, t.now)) ∧
     get_recent_conversations db "multi_tool_agent" 3 =
       ((queryDescLimit (·.id) (convRowsFor db "multi_tool_agent") 3).reverse).map
         rowToConversation) := by
  refine ⟨WF_emptyDB, by decide, by decide, ?_⟩
  exact recent_conversation_returns_last_K emptyDB "multi_tool_agent" _ 3 _ WF_emptyDB
    (by decide) (by decide) rfl

/-! ### Claim C5: the playlist items round-trip -/

/-- C5: for every name and item sequence, `append_playlist` followed by
`list_playlists(1)` returns exactly one playlist row whose decoded items
equal the appended items — the serialize/deserialize round-trip is the
identity, preserving values and order. -/
theorem playlist_items_roundtrip (db : DB) (now : Nat) (name : String)
    (items : List String) (hwf : WF db) :
    ∃ row : PlaylistRow,
      list_playlists (save_playlist db now name items).1 1 = [row] ∧
      row.name = name ∧
      jsonLoadsList row.items = some items := by
  obtain ⟨e1, e2, e3⟩ := save_playlist_tables db now name items
  refine ⟨⟨nextId (·.id) (playlistsOf db), name, jsonDumpsList items, now⟩, ?_, rfl,
    jsonLoadsList_jsonDumpsList items⟩
  unfold list_playlists
  rw [playlistsOf_init, e1]
  have hasc := (WF_save_playlist hwf now name items).2.1
  rw [e1] at hasc
  rw [queryDescLimit_of_asc _ _ _ hasc (by omega)]
  rw [lastN_append_right _ _ _ (by simp)]
  rfl

/-- Witness for C5 on a concrete three-item playlist. -/
theorem playlist_items_roundtrip_witness :
    WF emptyDB ∧
    ∃ row : PlaylistRow,
      list_playlists (save_playlist emptyDB 7 "X" ["a", "b", "c"]).1 1 = [row] ∧
      row.name = "X" ∧
      jsonLoadsList row.items = some ["a", "b", "c"] :=
  ⟨WF_emptyDB, playlist_items_roundtrip emptyDB 7 "X" ["a", "b", "c"] WF_emptyDB⟩

/-! ### Claim C10: untagged journals store the literal string `null` -/

/-- C10: a journal appended with `tags=None` stores the literal
four-character string `null` in its `tags` column, list operations return
that string, and the search filter matches the untagged row for every
term that occurs inside the string `null` (the term then matches the
tags column through `LIKE`). -/
theorem untagged_journal_null_tags (db : DB) (now : Nat) (agent entry : String)
    (hwf : WF db) :
    jsonDumpsOpt none = "null" ∧
    (∃ row : JournalRow,
      journalsOf (save_journal db now agent entry none).1 = journalsOf db ++ [row] ∧
      row.tags = "null" ∧
      (∀ lim : Int, 1 ≤ lim →
        (list_journals (save_journal db now agent entry none).1 lim).head? = some row) ∧
      (∀ term : String, strContains "null" term = true → searchHit term row = true)) := by
  obtain ⟨e1, e2, e3⟩ := save_journal_tables db now agent entry none
  refine ⟨rfl, _, e1, rfl, ?_, ?_⟩
  · intro lim hlim
    unfold list_journals
    rw [journalsOf_init, e1]
    have hasc := (WF_save_journal hwf now agent entry none).1
    rw [e1] at hasc
    rw [queryDescLimit_of_asc _ _ _ hasc (by omega)]
    unfold lastN
    simp only [List.length_append, List.length_singleton]
    rw [List.drop_append_of_le_length (by omega)]
    simp
  · intro term hterm
    unfold searchHit
    have hlike := strContains_implies_like hterm
    rw [show jsonDumpsOpt none = "null" from rfl, hlike, Bool.or_true]

/-- Witness for C10 at a concrete untagged entry and the term `ul`. -/
theorem untagged_journal_null_tags_witness :
    WF emptyDB ∧
    jsonDumpsOpt none = "null" ∧
    (∃ row : JournalRow,
      journalsOf (save_journal emptyDB 3 "learning_coach" "abc" none).1 =
        journalsOf emptyDB ++ [row] ∧
      row.tags = "null" ∧
      (∀ lim : Int, 1 ≤ lim →
        (list_journals (save_journal emptyDB 3 "learning_coach" "abc" none).1 lim).head? =
          some row) ∧
      (∀ term : String, strContains "null" term = true → searchHit term row = true)) :=
  ⟨WF_emptyDB, (untagged_journal_null_tags emptyDB 3 "learning_coach" "abc" WF_emptyDB).1,
   (untagged_journal_null_tags emptyDB 3 "learning_coach" "abc" WF_emptyDB).2⟩

/-! ### Claim C2: what `search_journals` actually matches -/

/-- C2 counterexample: `search_journals` uses SQL `LIKE`, whose default
SQLite semantics folds ASCII case. Searching for the term `A` returns a
stored row whose text is `abc` and whose serialized tags are `null`,
although `A` is a case-sensitive substring of neither — refuting the
claimed case-sensitive-substring characterization. -/
theorem search_journals_case_sensitivity_counterexample :
    search_journals (save_journal emptyDB 0 "learning_coach" "abc" none).1 "A" 20 =
      [{ id := 1, agent := "learning_coach", entry := "abc", tags := "null",
         created_at := 0 }] ∧
    strContains "abc" "A" = false ∧
    strContains "null" "A" = false := by
  refine ⟨by decide, by decide, by decide⟩

/-- C2 as amended: a stored row is returned by `search_journals(term)`
exactly when the SQLite `LIKE` pattern `%term%` matches its text or its
serialized tags — substring matching that is case-insensitive on ASCII
letters and reads `%` and `_` in the term as wildcards (limit permitting);
results are ordered newest first, and when nothing matches the result is
the empty sequence, not an error. -/
theorem search_journals_like_characterization (db : DB) (term : String) (lim : Int)
    (hwf : WF db) :
    (∀ r ∈ search_journals db term lim, r ∈ journalsOf db ∧ searchHit term r = true) ∧
    ((((journalsOf db).filter (searchHit term)).length : Int) ≤ lim →
      ∀ r : JournalRow,
        r ∈ search_journals db term lim ↔ r ∈ journalsOf db ∧ searchHit term r = true) ∧
    (search_journals db term lim).Pairwise (fun x y => y.id < x.id) ∧
    ((∀ r ∈ journalsOf db, searchHit term r = false) → search_journals db term lim = []) := by
  have hasc : List.Pairwise (fun r s => r.id < s.id)
      ((journalsOf db).filter (searchHit term)) := List.Pairwise.filter _ hwf.1
  have heq : search_journals db term lim =
      queryDescLimit (·.id) ((journalsOf db).filter (searchHit term)) lim := rfl
  refine ⟨?_, ?_, ?_, ?_⟩
  · intro r hr
    rw [heq] at hr
    have hmem := mem_queryDescLimit hr
    exact ⟨(List.mem_filter.mp hmem).1, (List.mem_filter.mp hmem).2⟩
  · intro hlim r
    rw [heq, queryDescLimit_all _ _ _ hasc hlim, List.mem_reverse, List.mem_filter]
  · rw [heq]
    by_cases h0 : lim < 0
    · unfold queryDescLimit
      rw [if_pos h0, sortDescBy_of_asc _ _ hasc, List.pairwise_reverse]
      exact hasc
    · rw [queryDescLimit_of_asc _ _ _ hasc (by omega), List.pairwise_reverse]
      unfold lastN
      exact hasc.drop
  · intro hnone
    rw [heq]
    have hfil : (journalsOf db).filter (searchHit term) = [] :=
      List.filter_eq_nil_iff.mpr (fun r hr => by rw [hnone r hr]; decide)
    rw [hfil]
    unfold queryDescLimit sortDescBy
    simp

/-- Witness for C2 (amended) on a two-row store and the term `he`. -/
theorem search_journals_like_characterization_witness :
    WF (save_journal (save_journal emptyDB 0 "a" "hello" none).1 1 "b" "bye" none).1 ∧
    ((∀ r ∈ search_journals
        (save_journal (save_journal emptyDB 0 "a" "hello" none).1 1 "b" "bye" none).1
        "he" 20,
      r ∈ journalsOf
          (save_journal (save_journal emptyDB 0 "a" "hello" none).1 1 "b" "bye" none).1 ∧
        searchHit "he" r = true) ∧
     ((((journalsOf (save_journal (save_journal emptyDB 0 "a" "hello" none).1 1 "b" "bye"
            none).1).filter (searchHit "he")).length : Int) ≤ 20 →
      ∀ r : JournalRow,
        r ∈ search_journals
            (save_journal (save_journal emptyDB 0 "a" "hello" none).1 1 "b" "bye" none).1
            "he" 20 ↔
          r ∈ journalsOf
              (save_journal (save_journal emptyDB 0 "a" "hello" none).1 1 "b" "bye"
                none).1 ∧
            searchHit "he" r = true) ∧
     (search_journals
         (save_journal (save_journal emptyDB 0 "a" "hello" none).1 1 "b" "bye" none).1
         "he" 20).Pairwise (fun x y => y.id < x.id) ∧
     ((∀ r ∈ journalsOf
          (save_journal (save_journal emptyDB 0 "a" "hello" none).1 1 "b" "bye" none).1,
        searchHit "he" r = false) →
      search_journals
          (save_journal (save_journal emptyDB 0 "a" "hello" none).1 1 "b" "bye" none).1
          "he" 20 = [])) := by
  have hwf : WF (save_journal (save_journal emptyDB 0 "a" "hello" none).1 1 "b" "bye"
      none).1 :=
    WF_save_journal (WF_save_journal WF_emptyDB 0 "a" "hello" none) 1 "b" "bye" none
  exact ⟨hwf, search_journals_like_characterization _ "he" 20 hwf⟩

/-! ### Claim C7: the tool-call status contract -/

/-- C7 counterexample: `generate_django_model` raises `ValueError` (and
returns no status mapping) when a comma-separated field item contains
more than one colon — the tuple unpacking
`field_name, field_type = field.strip().split(":")` gets three parts. -/
theorem django_model_value_error_counterexample :
    generate_django_model emptyDB 0 "Post" "title:CharField:extra" "" =
      Except.error PyError.valueError := by
  rfl

theorem djangoFieldLine_ok (f : String)
    (h : strContains f ":" = true → (pySplit (pyStrip f) ':').length = 2) :
    ∃ s, djangoFieldLine f = Except.ok s := by
  unfold djangoFieldLine
  by_cases hc : strContains f ":" = true
  · rw [if_pos hc]
    obtain ⟨x, y, hxy⟩ : ∃ x y, pySplit (pyStrip f) ':' = [x, y] := by
      have hl := h hc
      cases hsp : pySplit (pyStrip f) ':' with
      | nil => rw [hsp] at hl; simp at hl
      | cons a rest =>
        cases rest with
        | nil => rw [hsp] at hl; simp at hl
        | cons b rest2 =>
          cases rest2 with
          | nil => exact ⟨a, b, rfl⟩
          | cons c t => rw [hsp] at hl; simp at hl
    rw [hxy]
    exact ⟨_, rfl⟩
  · rw [if_neg hc]
    exact ⟨"", rfl⟩

theorem djangoBody_ok (fs : List String)
    (h : ∀ f ∈ fs, ∃ s, djangoFieldLine f = Except.ok s) :
    ∃ out : String, djangoBody fs = Except.ok out := by
  induction fs with
  | nil => exact ⟨"", rfl⟩
  | cons f fs ih =>
    obtain ⟨s, hs⟩ := h f (List.mem_cons_self f fs)
    obtain ⟨out, hout⟩ := ih (fun g hg => h g (List.mem_cons_of_mem f hg))
    refine ⟨s ++ out, ?_⟩
    rw [djangoBody, hs, hout]
    rfl

/-- C7 as amended: every agent-owned tool function returns a mapping whose
`status` field is one of `success`, `error`, `saved`, `ok`, and none
raises — except `generate_django_model`, which raises `ValueError` when
some comma-separated field item contains more than one colon; on every
input whose field items each contain at most one colon it, too, returns
`status = "success"`. -/
theorem tool_status_contract (db : DB) (now : Nat) :
    (∀ topic level steps, (create_lesson topic level steps).status ∈ statusVocab) ∧
    (∀ topic nq, (generate_quiz topic nq).status ∈ statusVocab) ∧
    (∀ entry tags, (journal db now entry tags).2.status ∈ statusVocab) ∧
    (∀ city, (get_weather city).status ∈ statusVocab) ∧
    (∀ city now_report, (get_current_time city now_report).status ∈ statusVocab) ∧
    (∀ text tone, (generate_caption text tone).status ∈ statusVocab) ∧
    (∀ genres length, (make_playlist db now genres length).2.status ∈ statusVocab) ∧
    (∀ topic dur, (script_outline topic dur).status ∈ statusVocab) ∧
    (∀ now_iso td dd pr tg, (add_task db now now_iso td dd pr tg).2.status ∈ statusVocab) ∧
    (∀ status lim, (list_tasks db status lim).status ∈ statusVocab) ∧
    (∀ tid ns, (update_task_status db now tid ns).2.status ∈ statusVocab) ∧
    (∀ t u ty d, (add_project_doc db now t u ty d).2.status ∈ statusVocab) ∧
    (∀ bn fd, (generate_git_workflow_summary db now bn fd).2.status ∈ statusVocab) ∧
    (∀ rt rd rty, (set_reminder db now rt rd rty).2.status ∈ statusVocab) ∧
    (∀ days_back, (get_project_summary db days_back).status ∈ statusVocab) ∧
    (∀ cs ed, (debug_python_code db now cs ed).2.status ∈ statusVocab) ∧
    (∀ fn fd tc, (generate_test_cases db now fn fd tc).2.status ∈ statusVocab) ∧
    (∀ t c l tg, (save_code_snippet db now t c l tg).2.status ∈ statusVocab) ∧
    (∀ lim, (get_coding_history db lim).status ∈ statusVocab) ∧
    (∀ agent lim, (get_memory db agent lim).status ∈ statusVocab) ∧
    (∀ mn fields desc, djangoFieldsOk fields →
      ∃ r, generate_django_model db now mn fields desc = Except.ok r ∧
        r.2.status ∈ statusVocab) := by
  refine ⟨?_, ?_, ?_, ?_, ?_, ?_, ?_, ?_, ?_, ?_, ?_, ?_, ?_, ?_, ?_, ?_, ?_, ?_, ?_, ?_, ?_⟩
  · intro topic level steps
    show "success" ∈ statusVocab
    decide
  · intro topic nq
    show "success" ∈ statusVocab
    decide
  · intro entry tags
    show "saved" ∈ statusVocab
    decide
  · intro city
    unfold get_weather
    split <;> simp [statusVocab]
  · intro city now_report
    unfold get_current_time
    split <;> simp [statusVocab]
  · intro text tone
    show "success" ∈ statusVocab
    decide
  · intro genres length
    show "success" ∈ statusVocab
    decide
  · intro topic dur
    show "success" ∈ statusVocab
    decide
  · intro now_iso td dd pr tg
    show "success" ∈ statusVocab
    decide
  · intro status lim
    show "success" ∈ statusVocab
    decide
  · intro tid ns
    show "success" ∈ statusVocab
    decide
  · intro t u ty d
    show "success" ∈ statusVocab
    decide
  · intro bn fd
    show "success" ∈ statusVocab
    decide
  · intro rt rd rty
    show "success" ∈ statusVocab
    decide
  · intro days_back
    show "success" ∈ statusVocab
    decide
  · intro cs ed
    show "success" ∈ statusVocab
    decide
  · intro fn fd tc
    show "success" ∈ statusVocab
    decide
  · intro t c l tg
    show "saved" ∈ statusVocab
    decide
  · intro lim
    show "success" ∈ statusVocab
    decide
  · intro agent lim
    show "success" ∈ statusVocab
    decide
  · intro mn fields desc hok
    obtain ⟨body, hbody⟩ := djangoBody_ok (pySplit fields ',')
      (fun f hf => djangoFieldLine_ok f (hok f hf))
    simp only [generate_django_model]
    rw [hbody]
    refine ⟨_, rfl, ?_⟩
    show "success" ∈ statusVocab
    decide

/-- Witness for C7 (amended) at a well-formed field specification. -/
theorem tool_status_contract_witness :
    djangoFieldsOk "title:CharField,content:TextField" ∧
    ∃ r, generate_django_model emptyDB 0 "Post" "title:CharField,content:TextField" "" =
        Except.ok r ∧ r.2.status ∈ statusVocab := by
  refine ⟨by unfold djangoFieldsOk; decide, ?_⟩
  exact (tool_status_contract emptyDB
    0).2.2.2.2.2.2.2.2.2.2.2.2.2.2.2.2.2.2.2.2 "Post" "title:CharField,content:TextField" ""
    (by unfold djangoFieldsOk; decide)

end AgentsDb